import Mathlib

/-!
Verification of the goGraphML library (package graphml, file graphml.go)
against its natural-language specification.

The Go code is shallowly embedded: every Go function that the claims
depend on is translated into an executable Lean definition of the same
name (up to capitalisation rules).  Go pointer mutation of the shared
GraphML document is modelled by explicit state passing: an operation
that in Go mutates the document through a pointer and returns
(result, error) becomes a Lean function returning the post-state
together with an Except value, because in Go the document keeps the
mutations performed before a failure.

Go dynamic values (interface{} attribute values) are modelled by the
closed variant GoValue.  Numeric float payloads are represented by
their canonical Go string rendering (the string fmt.Sprint would
produce), which is a faithful representation because the only
operations the library performs on them are fmt.Sprint (identity on
the representation) and strconv.ParseFloat of strings the library
itself rendered.  Go maps are modelled as association lists with
insert-overwrite semantics; map iteration order is never observable in
the modelled code paths (the only iterated map, the attribute map in
createDataAttributes, is first sorted by name by the Go code itself).
-/

namespace GoGraphML

/-- The reflect.Kind of a dynamically typed Go value, restricted to the
kinds inspected by typeNameForKind plus a catch-all for every other kind. -/
inductive GoKind where
  | kBool | kInt | kInt8 | kInt16 | kInt32 | kUint8 | kUint16
  | kInt64 | kUint32 | kFloat32 | kFloat64 | kString | kOther
  deriving DecidableEq, Repr

/-- A dynamically typed Go value (interface{}) as supplied in attribute maps.
Float payloads carry their canonical Go rendering as a string. -/
inductive GoValue where
  | vBool (b : Bool)
  | vInt (n : Int)
  | vLong (n : Int)
  | vFloat (s : String)
  | vDouble (s : String)
  | vStr (s : String)
  | vOther
  deriving DecidableEq, Repr

/-- reflect.TypeOf(value).Kind() for the modelled values. -/
def kindOf : GoValue → GoKind
  | .vBool _ => .kBool
  | .vInt _ => .kInt
  | .vLong _ => .kInt64
  | .vFloat _ => .kFloat32
  | .vDouble _ => .kFloat64
  | .vStr _ => .kString
  | .vOther => .kOther

/-- fmt.Sprint on the modelled values.  The vOther case is unreachable in
the library because every call site first checks the kind through
typeNameForKind, which rejects kOther. -/
def goSprint : GoValue → String
  | .vBool true => "true"
  | .vBool false => "false"
  | .vInt n => toString n
  | .vLong n => toString n
  | .vFloat s => s
  | .vDouble s => s
  | .vStr s => s
  | .vOther => "<other>"

/-- strconv.ParseBool. -/
def parseBool (s : String) : Except String Bool :=
  if s = "1" ∨ s = "t" ∨ s = "T" ∨ s = "TRUE" ∨ s = "true" ∨ s = "True" then .ok true
  else if s = "0" ∨ s = "f" ∨ s = "F" ∨ s = "FALSE" ∨ s = "false" ∨ s = "False" then .ok false
  else .error ("strconv.ParseBool: parsing " ++ s ++ ": invalid syntax")

/-- The numeric value of a list of decimal digit characters, or none if the
list is empty or contains a non-digit. -/
def digitsVal : List Char → Option Nat
  | [] => none
  | [c] => if c.isDigit then some (c.toNat - 48) else none
  | c :: rest =>
    if c.isDigit then
      match digitsVal rest with
      | some n => some ((c.toNat - 48) * 10 ^ rest.length + n)
      | none => none
    else none

/-- strconv.ParseInt with base 10 and bit size 64: an optional sign followed
by decimal digits, range-checked against int64. -/
def parseInt64 (s : String) : Except String Int :=
  let chars := s.toList
  let signed : Option (Bool × List Char) :=
    match chars with
    | [] => none
    | c :: rest =>
      if c = Char.ofNat 45 then some (true, rest)
      else if c = Char.ofNat 43 then some (false, rest)
      else some (false, chars)
  match signed with
  | none => .error ("strconv.ParseInt: parsing " ++ s ++ ": invalid syntax")
  | some (neg, digits) =>
    match digitsVal digits with
    | none => .error ("strconv.ParseInt: parsing " ++ s ++ ": invalid syntax")
    | some n =>
      let v : Int := if neg then -(n : Int) else (n : Int)
      if v < -(2 ^ 63 : Int) ∨ (2 ^ 63 : Int) - 1 < v then
        .error ("strconv.ParseInt: parsing " ++ s ++ ": value out of range")
      else .ok v

/-- Splits the longest prefix of decimal digits off a character list,
returning how many digits were dropped and the remainder. -/
def dropDigits : List Char → Nat × List Char
  | [] => (0, [])
  | c :: rest =>
    if c.isDigit then
      let p := dropDigits rest
      (p.1 + 1, p.2)
    else (0, c :: rest)

/-- Validity of the exponent suffix of a float literal (empty, or e/E with
an optionally signed non-empty digit string). -/
def validExpPart : List Char → Bool
  | [] => true
  | c :: rest =>
    if c = Char.ofNat 101 ∨ c = Char.ofNat 69 then
      let rest2 :=
        match rest with
        | d :: r2 => if d = Char.ofNat 43 ∨ d = Char.ofNat 45 then r2 else rest
        | [] => rest
      let p := dropDigits rest2
      decide (0 < p.1) && p.2.isEmpty
    else false

/-- Validity of a decimal float literal for strconv.ParseFloat: an optional
sign, then digits with an optional fractional part (at least one digit
overall), then an optional exponent.  The special inf/NaN and hexadecimal
forms accepted by Go are not modelled; no string the library itself renders
takes those forms. -/
def validFloat (s : String) : Bool :=
  let chars := s.toList
  let body :=
    match chars with
    | c :: rest => if c = Char.ofNat 43 ∨ c = Char.ofNat 45 then rest else chars
    | [] => chars
  let p := dropDigits body
  match p.2 with
  | [] => decide (0 < p.1)
  | c :: rest =>
    if c = Char.ofNat 46 then
      let q := dropDigits rest
      decide (0 < p.1 + q.1) && validExpPart q.2
    else decide (0 < p.1) && validExpPart (c :: rest)

/-- The Key element: a data-function declaration (graphml.go, type Key).
KeyType and Target are the Go string types DataType and KeyForElement. -/
structure Key where
  ID : String
  Target : String
  Name : String
  KeyType : String
  Description : String
  DefaultValue : String
  deriving DecidableEq, Repr, Inhabited

/-- The Data element: one concrete value assignment (graphml.go, type Data). -/
structure Data where
  ID : String
  Key : String
  Value : String
  deriving DecidableEq, Repr, Inhabited

/-- The Node element (graphml.go, type Node).  The graph back-reference is
not stored; operations receive the owning structures explicitly. -/
structure Node where
  ID : String
  Description : String
  Data : List Data
  deriving DecidableEq, Repr, Inhabited

/-- The Edge element (graphml.go, type Edge). -/
structure Edge where
  ID : String
  Source : String
  Target : String
  Directed : String
  Description : String
  Data : List Data
  deriving DecidableEq, Repr, Inhabited

/-- The Go EdgeDirection enumeration. -/
inductive EdgeDirection where
  | default | directed | undirected
  deriving DecidableEq, Repr, Inhabited

/-- The Graph element (graphml.go, type Graph) with its derived indexes. -/
structure Graph where
  ID : String
  EdgeDefault : String
  Description : String
  Nodes : List Node
  Edges : List Edge
  Data : List Data
  nodesMap : List (String × Node)
  edgesMap : List (String × Edge)
  edgesDirection : EdgeDirection
  deriving DecidableEq, Repr, Inhabited

/-- The root GraphML document (graphml.go, type GraphML) with its derived
key indexes.  The fixed XML namespace attributes are omitted: they are
constants that carry no information. -/
structure GraphML where
  Description : String
  Keys : List Key
  Data : List Data
  Graphs : List Graph
  keysByIdentifier : List (String × Key)
  keysById : List (String × Key)
  keyTypeDefault : String
  deriving DecidableEq, Repr, Inhabited

/-- First-match lookup in an association list, the model of Go map reads. -/
def lookupMap {α : Type} : List (String × α) → String → Option α
  | [], _ => none
  | p :: rest, k => if p.1 = k then some p.2 else lookupMap rest k

/-- Go map insertion: any previous binding of the key is overwritten. -/
def mapInsert {α : Type} (m : List (String × α)) (k : String) (v : α) : List (String × α) :=
  (k, v) :: m.filter (fun p => decide (p.1 ≠ k))

/-- Go map deletion. -/
def eraseMap {α : Type} (m : List (String × α)) (k : String) : List (String × α) :=
  m.filter (fun p => decide (p.1 ≠ k))

theorem lookupMap_filter_ne {α : Type} (m : List (String × α)) (k k' : String) :
    lookupMap (m.filter (fun p => decide (p.1 ≠ k))) k' =
      if k' = k then none else lookupMap m k' := by
  induction m with
  | nil => simp [lookupMap]
  | cons p rest ih =>
    rw [List.filter_cons]
    by_cases hp : p.1 = k
    · rw [if_neg (by simp [hp])]
      rw [ih]
      by_cases h : k' = k
      · simp [h]
      · rw [if_neg h, if_neg h]
        simp only [lookupMap]
        rw [if_neg (fun e => h (hp.symm.trans e).symm)]
    · rw [if_pos (by simp [hp])]
      simp only [lookupMap]
      by_cases hpk : p.1 = k'
      · have hk : ¬k' = k := fun e => hp (hpk.trans e)
        rw [if_pos hpk, if_neg hk, if_pos hpk]
      · rw [if_neg hpk, ih]
        by_cases h : k' = k
        · rw [if_pos h, if_pos h]
        · rw [if_neg h, if_neg h, if_neg hpk]

theorem lookupMap_eraseMap {α : Type} (m : List (String × α)) (k k' : String) :
    lookupMap (eraseMap m k) k' = if k' = k then none else lookupMap m k' :=
  lookupMap_filter_ne m k k'

theorem lookupMap_mapInsert {α : Type} (m : List (String × α)) (k k' : String) (v : α) :
    lookupMap (mapInsert m k v) k' = if k' = k then some v else lookupMap m k' := by
  unfold mapInsert
  simp only [lookupMap]
  by_cases h : k' = k
  · rw [if_pos h.symm, if_pos h]
  · rw [if_neg (fun e => h e.symm), lookupMap_filter_ne, if_neg h, if_neg h]

/-- typeNameForKind (graphml.go): wire type name for a reflect.Kind. -/
def typeNameForKind : GoKind → Except String String
  | .kBool => .ok ("boolean")
  | .kInt | .kInt8 | .kInt16 | .kInt32 | .kUint8 | .kUint16 => .ok ("int")
  | .kInt64 | .kUint32 => .ok ("long")
  | .kFloat32 => .ok ("float")
  | .kFloat64 => .ok ("double")
  | .kString => .ok ("string")
  | .kOther => .error ("unsupported data type for key")

/-- stringValueIfSupported (graphml.go): checks that the native type of the
value is compatible with the wire type of the key and renders the value with
fmt.Sprint.  A keyType outside the six wire types performs no check. -/
def stringValueIfSupported (value : GoValue) (keyType : String) : Except String String :=
  match keyType with
  | "boolean" =>
    if kindOf value = GoKind.kBool then .ok (goSprint value)
    else .error ("default value has wrong data type when boolean expected")
  | "int" | "long" =>
    match typeNameForKind (kindOf value) with
    | .error e => .error e
    | .ok tn =>
      if tn = "int" ∨ tn = "long" then .ok (goSprint value)
      else .error ("default value has wrong data type when int/long expected: " ++ tn)
  | "float" | "double" =>
    match typeNameForKind (kindOf value) with
    | .error e => .error e
    | .ok tn =>
      if tn = "float" ∨ tn = "double" then .ok (goSprint value)
      else .error ("default value has wrong data type when float/double expected: " ++ tn)
  | "string" =>
    match typeNameForKind (kindOf value) with
    | .error e => .error e
    | .ok tn =>
      if tn = "string" then .ok (goSprint value)
      else .error ("default value has wrong data type when string expected: " ++ tn)
  | _ => .ok (goSprint value)

/-- One dispatch step of valueByType for the six known wire types; none for
any other type name. -/
def valueByTypePrim (val keyType : String) : Option (Except String GoValue) :=
  match keyType with
  | "boolean" =>
    some (match parseBool val with
          | .error e => .error e
          | .ok b => .ok (GoValue.vBool b))
  | "int" =>
    some (match parseInt64 val with
          | .error e => .error e
          | .ok n => .ok (GoValue.vInt n))
  | "long" =>
    some (match parseInt64 val with
          | .error e => .error e
          | .ok n => .ok (GoValue.vLong n))
  | "float" =>
    some (if validFloat val then .ok (GoValue.vFloat val)
          else .error ("strconv.ParseFloat: parsing " ++ val ++ ": invalid syntax"))
  | "double" =>
    some (if validFloat val then .ok (GoValue.vDouble val)
          else .error ("strconv.ParseFloat: parsing " ++ val ++ ": invalid syntax"))
  | "string" => some (.ok (GoValue.vStr val))
  | _ => none

/-- valueByType (graphml.go): parse a serialized string back to a typed value.
For an unknown wire type the Go code falls back to the document default key
type; if that default is itself unknown and non-empty the Go code recurses
forever, which the model reports as an error. -/
def valueByType (val keyType keyTypeDefault : String) : Except String GoValue :=
  match valueByTypePrim val keyType with
  | some r => r
  | none =>
    if keyTypeDefault = "" then .ok (GoValue.vStr val)
    else
      match valueByTypePrim val keyTypeDefault with
      | some r => r
      | none => .error ("valueByType does not terminate for unknown default key type")

/-- edgeIdentifier (graphml.go). -/
def edgeIdentifier (source target : String) : String :=
  source ++ "<->" ++ target

/-- keyIdentifier (graphml.go). -/
def keyIdentifier (name target : String) : String :=
  name ++ "_for_" ++ target

/-- keysForElement (graphml.go): the keys applying to a target element kind. -/
def keysForElement (allKeys : List Key) (target : String) : List Key :=
  allKeys.filter (fun k => decide (k.Target = target ∨ k.Target = "all"))

/-- The value-selection step of attributesForData (graphml.go lines 550-557):
use the Data value when non-empty; otherwise, for a non-string key, fall back
to the default value of the key or fail. -/
def resolveDataValue (d : Data) (key : Key) : Except String String :=
  if d.Value = "" ∧ key.KeyType ≠ "string" then
    if key.DefaultValue ≠ "" then .ok key.DefaultValue
    else .error ("data has no value and key id: " ++ d.Key ++ " has no default value")
  else .ok d.Value

/-- The first loop of attributesForData: resolve every Data record of the
element into a name-to-value binding. -/
def dataPhase (gml : GraphML) : List Data → List (String × GoValue) →
    Except String (List (String × GoValue))
  | [], attr => .ok attr
  | d :: rest, attr =>
    match lookupMap gml.keysById d.Key with
    | none => .error ("failed to find attribute name/type by id: " ++ d.Key)
    | some key =>
      match resolveDataValue d key with
      | .error e => .error e
      | .ok dataValue =>
        match valueByType dataValue key.KeyType gml.keyTypeDefault with
        | .error e => .error e
        | .ok value => dataPhase gml rest (mapInsert attr key.Name value)

/-- The second loop of attributesForData: fill defaults for applicable keys
that contributed no binding. -/
def fillDefaults (gml : GraphML) : List Key → List (String × GoValue) →
    Except String (List (String × GoValue))
  | [], attr => .ok attr
  | k :: rest, attr =>
    if k.DefaultValue = "" ∧ k.KeyType ≠ "string" then fillDefaults gml rest attr
    else
      match lookupMap attr k.Name with
      | some _ => fillDefaults gml rest attr
      | none =>
        match valueByType k.DefaultValue k.KeyType gml.keyTypeDefault with
        | .error _ => .error ("could not parse default value for key id: " ++ k.ID)
        | .ok val => fillDefaults gml rest (mapInsert attr k.Name val)

/-- attributesForData (graphml.go): builds the resolved attribute map for the
Data records of one element. -/
def attributesForData (data : List Data) (target : String) (gml : GraphML) :
    Except String (List (String × GoValue)) :=
  match dataPhase gml data [] with
  | .error e => .error e
  | .ok attr => fillDefaults gml (keysForElement gml.Keys target) attr

/-- GraphML.GetAttributes (graphml.go). -/
def getAttributesRoot (gml : GraphML) : Except String (List (String × GoValue)) :=
  attributesForData gml.Data ("graphml") gml

/-- Graph.GetAttributes (graphml.go), addressed by graph position. -/
def getAttributesGraph (gml : GraphML) (gi : Nat) :
    Option (Except String (List (String × GoValue))) :=
  (gml.Graphs.get? gi).map (fun g => attributesForData g.Data ("graph") gml)

/-- Node.GetAttributes (graphml.go), addressed by graph and node position. -/
def getAttributesNode (gml : GraphML) (gi ni : Nat) :
    Option (Except String (List (String × GoValue))) :=
  ((gml.Graphs.get? gi).bind (fun g => g.Nodes.get? ni)).map
    (fun n => attributesForData n.Data ("node") gml)

/-- Edge.GetAttributes (graphml.go), addressed by graph and edge position. -/
def getAttributesEdge (gml : GraphML) (gi ei : Nat) :
    Option (Except String (List (String × GoValue))) :=
  ((gml.Graphs.get? gi).bind (fun g => g.Edges.get? ei)).map
    (fun e => attributesForData e.Data ("edge") gml)

/-- Attribute maps supplied by callers: names bound to Go values, where the
binding to none models the NotAValue sentinel (a nil interface value). -/
abbrev AttrList := List (String × Option GoValue)

/-- NewGraphMLWithDefaultKeyType (graphml.go): fresh document. -/
def NewGraphMLWithDefaultKeyType (description keyTypeDefault : String) : GraphML :=
  { Description := description, Keys := [], Data := [], Graphs := [],
    keysByIdentifier := [], keysById := [], keyTypeDefault := keyTypeDefault }

/-- NewGraphML (graphml.go): fresh document with string default key type. -/
def NewGraphML (description : String) : GraphML :=
  NewGraphMLWithDefaultKeyType description ("string")

/-- GraphML.GetKey (graphml.go): scoped lookup, falling back from the exact
target to the common target all. -/
def GetKey (gml : GraphML) (name target : String) : Option Key :=
  match lookupMap gml.keysByIdentifier (keyIdentifier name target) with
  | some key => some key
  | none => lookupMap gml.keysByIdentifier (keyIdentifier name ("all"))

/-- GraphML.addKey (graphml.go): append a key and index it. -/
def addKey (gml : GraphML) (key : Key) : GraphML :=
  { gml with
    Keys := gml.Keys ++ [key],
    keysByIdentifier := mapInsert gml.keysByIdentifier (keyIdentifier key.Name key.Target) key,
    keysById := mapInsert gml.keysById key.ID key }

/-- The default-value rendering step of RegisterKey (graphml.go): a nil
default is stored as the empty string, otherwise the value is rendered and
checked against the wire type. -/
def registerDefault (defaultValue : Option GoValue) (kt : String) : Except String String :=
  match defaultValue with
  | none => .ok ("")
  | some v => stringValueIfSupported v kt

/-- GraphML.RegisterKey (graphml.go).  The post-state is returned together
with the outcome; on failure the Go code has not mutated the document. -/
def RegisterKey (gml : GraphML) (target name description : String)
    (keyType : GoKind) (defaultValue : Option GoValue) : GraphML × Except String Key :=
  match GetKey gml name target with
  | some _ => (gml, .error ("key with given name already registered: " ++ name))
  | none =>
    match typeNameForKind keyType with
    | .error e => (gml, .error e)
    | .ok kt =>
      match registerDefault defaultValue kt with
      | .error e => (gml, .error e)
      | .ok ds =>
        let key : Key :=
          { ID := "d" ++ toString gml.Keys.length, Target := target, Name := name,
            KeyType := kt, Description := description, DefaultValue := ds }
        (addKey gml key, .ok key)

/-- createDataWithKey (graphml.go).  The translation preserves a slip of the
Go code: when stringValueIfSupported reports an incompatible value type, the
function falls through to its final return data, nil statement, so the error
is swallowed and a Data record whose value is the placeholder string
unsupported is produced. -/
def createDataWithKey (value : Option GoValue) (key : Key) : Except String Data :=
  match value with
  | some v =>
    match stringValueIfSupported v key.KeyType with
    | .ok s => .ok { ID := "", Key := key.ID, Value := s }
    | .error _ => .ok { ID := "", Key := key.ID, Value := "unsupported" }
  | none =>
    if key.Target = "all" ∧ 0 < key.DefaultValue.length then
      .ok { ID := "", Key := key.ID, Value := key.DefaultValue }
    else .error ("empty attribute without default value: " ++ key.Name)

/-- Strict lexicographic comparison of character lists by code point, the
order sort.Strings uses (byte-wise comparison of UTF-8 strings coincides
with code-point order). -/
def charListLt : List Char → List Char → Bool
  | _, [] => false
  | [], _ :: _ => true
  | a :: as, b :: bs =>
    if a.toNat < b.toNat then true
    else if b.toNat < a.toNat then false
    else charListLt as bs

/-- Strict string comparison for the name sort of createDataAttributes. -/
def strLt (s t : String) : Bool := charListLt s.toList t.toList

/-- Insertion into a sorted string list, ascending. -/
def insertSorted (s : String) : List String → List String
  | [] => [s]
  | t :: rest => if strLt s t then s :: t :: rest else t :: insertSorted s rest

/-- The sort.Strings call of createDataAttributes (graphml.go). -/
def sortStrings : List String → List String
  | [] => []
  | s :: rest => insertSorted s (sortStrings rest)

/-- The loop body of createDataAttributes (graphml.go): process the sorted
attribute names, implicitly registering missing keys.  The document state is
threaded because implicit registrations performed before a failure survive
the failure in Go. -/
def createDataLoop (attrs : AttrList) (target : String) :
    GraphML → List String → List Data → GraphML × Except String (List Data)
  | gml, [], acc => (gml, .ok acc)
  | gml, name :: rest, acc =>
    let val : Option GoValue := (lookupMap attrs name).getD none
    match GetKey gml name target with
    | some keyFunc =>
      match createDataWithKey val keyFunc with
      | .error e => (gml, .error e)
      | .ok d => createDataLoop attrs target gml rest (acc ++ [d])
    | none =>
      match val with
      | none =>
        (gml, .error ("panic: reflect.TypeOf(nil) has no Kind"))
      | some v =>
        match RegisterKey gml target name ("") (kindOf v) none with
        | (gml2, .error e) => (gml2, .error e)
        | (gml2, .ok keyFunc) =>
          match createDataWithKey val keyFunc with
          | .error e => (gml2, .error e)
          | .ok d => createDataLoop attrs target gml2 rest (acc ++ [d])

/-- createDataAttributes (graphml.go): renders an attribute map into Data
records for a target element kind, in lexicographic name order. -/
def createDataAttributes (gml : GraphML) (attributes : AttrList) (target : String) :
    GraphML × Except String (List Data) :=
  createDataLoop attributes target gml (sortStrings (attributes.map Prod.fst)) []

/-- NewGraphMLWithAttributes (graphml.go).  On failure Go returns nil and the
partially mutated document is discarded by the caller; the model still
returns the post-state for uniformity. -/
def NewGraphMLWithAttributes (description : String) (attributes : AttrList) :
    GraphML × Except String Unit :=
  match createDataAttributes (NewGraphML description) attributes ("graphml") with
  | (gml2, .error e) => (gml2, .error e)
  | (gml2, .ok data) => ({ gml2 with Data := data }, .ok ())

/-- GraphML.AddGraph (graphml.go). -/
def AddGraph (gml : GraphML) (description : String) (edgeDefault : EdgeDirection)
    (attributes : AttrList) : GraphML × Except String Graph :=
  match edgeDefault with
  | .default => (gml, .error ("default edge direction must be provided"))
  | _ =>
    let count := gml.Graphs.length
    let edgeDirection : String :=
      match edgeDefault with
      | .directed => "directed"
      | .undirected => "undirected"
      | .default => ""
    match createDataAttributes gml attributes ("graph") with
    | (gml2, .error e) => (gml2, .error e)
    | (gml2, .ok data) =>
      let graph : Graph :=
        { ID := "g" ++ toString count, EdgeDefault := edgeDirection,
          Description := description, Nodes := [], Edges := [], Data := data,
          nodesMap := [], edgesMap := [], edgesDirection := edgeDefault }
      ({ gml2 with Graphs := gml2.Graphs ++ [graph] }, .ok graph)

/-- Graph.AddNode (graphml.go), addressed by the position of the graph in
the owning document (a Go method on the graph pointer, which also mutates
the shared document through the parent pointer). -/
def AddNode (gml : GraphML) (gi : Nat) (attributes : AttrList) (description : String) :
    GraphML × Except String Node :=
  match gml.Graphs.get? gi with
  | none => (gml, .error ("no such graph in the document"))
  | some gr =>
    let count := gr.Nodes.length
    match createDataAttributes gml attributes ("node") with
    | (gml2, .error e) => (gml2, .error e)
    | (gml2, .ok data) =>
      let node : Node := { ID := "n" ++ toString count, Description := description, Data := data }
      let gr2 := { gr with Nodes := gr.Nodes ++ [node],
                           nodesMap := mapInsert gr.nodesMap node.ID node }
      ({ gml2 with Graphs := gml2.Graphs.set gi gr2 }, .ok node)

/-- Graph.GetNode (graphml.go). -/
def GetNode (gr : Graph) (id : String) : Option Node :=
  lookupMap gr.nodesMap id

/-- The existence check of Graph.AddEdge (graphml.go lines 426-433): the
(source, target) identifier is probed first; when it misses and either the
explicit direction of the edge or the default direction of the graph is
undirected, the reverse identifier is probed as well. -/
def edgeExists (gr : Graph) (sourceID targetID : String) (edgeDirection : EdgeDirection) : Bool :=
  let existsForward := (lookupMap gr.edgesMap (edgeIdentifier sourceID targetID)).isSome
  if ¬existsForward ∧ (edgeDirection = EdgeDirection.undirected ∨
      gr.edgesDirection = EdgeDirection.undirected) then
    (lookupMap gr.edgesMap (edgeIdentifier targetID sourceID)).isSome
  else existsForward

/-- The directed attribute written by AddEdge (graphml.go lines 445-450):
set only when the direction of the edge is explicitly directed or
undirected. -/
def directedLabel : EdgeDirection → String
  | .directed => "true"
  | .undirected => "false"
  | .default => ""

/-- Graph.AddEdge (graphml.go), addressed by graph position and the ids of
the two nodes (Go receives node pointers but reads only their ID fields). -/
def AddEdge (gml : GraphML) (gi : Nat) (sourceID targetID : String)
    (attributes : AttrList) (edgeDirection : EdgeDirection) (description : String) :
    GraphML × Except String Edge :=
  match gml.Graphs.get? gi with
  | none => (gml, .error ("no such graph in the document"))
  | some gr =>
    if edgeExists gr sourceID targetID edgeDirection then
      (gml, .error ("edge already added to the graph"))
    else
      let count := gr.Edges.length
      let directed : String := directedLabel edgeDirection
      match createDataAttributes gml attributes ("edge") with
      | (gml2, .error e) => (gml2, .error e)
      | (gml2, .ok data) =>
        let edge : Edge :=
          { ID := "e" ++ toString count, Source := sourceID, Target := targetID,
            Directed := directed, Description := description, Data := data }
        let gr2 := { gr with Edges := gr.Edges ++ [edge],
                             edgesMap := mapInsert gr.edgesMap
                               (edgeIdentifier sourceID targetID) edge }
        ({ gml2 with Graphs := gml2.Graphs.set gi gr2 }, .ok edge)

/-- Graph.GetEdge (graphml.go). -/
def GetEdge (gr : Graph) (sourceId targetId : String) : Option Edge :=
  lookupMap gr.edgesMap (edgeIdentifier sourceId targetId)

/-- removeAttributeFromData (graphml.go): removes the first Data record
referencing the key id, if any. -/
def removeAttributeFromData : List Data → String → List Data
  | [], _ => []
  | d :: rest, key => if d.Key = key then rest else d :: removeAttributeFromData rest key

/-- The search loop of RemoveKey (graphml.go): Go compares key pointers; in
a built document distinct keys are structurally distinct (their sequential
ids differ), so value equality removes the same element. -/
def removeKeyFromList : List Key → Key → Option (List Key)
  | [], _ => none
  | k :: rest, key =>
    if k = key then some rest
    else (removeKeyFromList rest key).map (fun l => k :: l)

/-- The per-graph cascade of RemoveKey (graphml.go lines 331-345): strips
the attribute from the graph itself, its nodes, and its edges, as selected by
the target scope of the key. -/
def removeKeyFromGraph (key : Key) (g : Graph) : Graph :=
  let g1 :=
    if key.Target = "all" ∨ key.Target = "graph" then
      { g with Data := removeAttributeFromData g.Data key.ID }
    else g
  let g2 :=
    if key.Target = "all" ∨ key.Target = "node" then
      { g1 with Nodes := g1.Nodes.map (fun n =>
          { n with Data := removeAttributeFromData n.Data key.ID }) }
    else g1
  if key.Target = "all" ∨ key.Target = "edge" then
    { g2 with Edges := g2.Edges.map (fun e =>
        { e with Data := removeAttributeFromData e.Data key.ID }) }
  else g2

/-- GraphML.RemoveKey (graphml.go): removes the key from the list and both
indexes, then cascades removeAttributeFromData over the holders selected by
the target scope of the key. -/
def RemoveKey (gml : GraphML) (key : Key) : Except String GraphML :=
  match removeKeyFromList gml.Keys key with
  | none => .error ("key not found")
  | some keys2 =>
    let gml1 : GraphML :=
      { gml with
        Keys := keys2,
        keysById := eraseMap gml.keysById key.ID,
        keysByIdentifier := eraseMap gml.keysByIdentifier (keyIdentifier key.Name key.Target) }
    let gml2 :=
      if key.Target = "all" ∨ key.Target = "graphml" then
        { gml1 with Data := removeAttributeFromData gml1.Data key.ID }
      else gml1
    if key.Target = "graphml" then .ok gml2
    else .ok { gml2 with Graphs := gml2.Graphs.map (removeKeyFromGraph key) }

/-- The XML-persisted fields of one graph element.  Go encoding/xml writes
exactly the tagged exported fields; the derived indexes and back-references
are unexported and never serialized. -/
structure WireGraph where
  ID : String
  EdgeDefault : String
  Description : String
  Nodes : List Node
  Edges : List Edge
  Data : List Data
  deriving DecidableEq, Repr

/-- The XML-persisted content of a GraphML document.  The Go stdlib codec is
modelled as the identity on these fields: every tagged field round-trips
through the XML text verbatim (an empty string is omitted on write by
omitempty and read back as the empty string). -/
structure Wire where
  Description : String
  Keys : List Key
  Data : List Data
  Graphs : List WireGraph
  deriving DecidableEq, Repr

/-- GraphML.Encode (graphml.go) at the level of persisted fields. -/
def Encode (gml : GraphML) : Wire :=
  { Description := gml.Description,
    Keys := gml.Keys,
    Data := gml.Data,
    Graphs := gml.Graphs.map (fun g =>
      { ID := g.ID, EdgeDefault := g.EdgeDefault, Description := g.Description,
        Nodes := g.Nodes, Edges := g.Edges, Data := g.Data }) }

/-- The key-defaulting step of Decode (graphml.go lines 242-251): an absent
attr.type falls back to the document default key type and an absent target
falls back to all. -/
def fixKey (keyTypeDefault : String) (k : Key) : Key :=
  let k1 := if k.KeyType = "" then { k with KeyType := keyTypeDefault } else k
  if k1.Target = "" then { k1 with Target := "all" } else k1

/-- The keysByIdentifier index rebuilt by Decode. -/
def buildKeysByIdentifier (keys : List Key) : List (String × Key) :=
  keys.foldl (fun m k => mapInsert m (keyIdentifier k.Name k.Target) k) []

/-- The keysById index rebuilt by Decode. -/
def buildKeysById (keys : List Key) : List (String × Key) :=
  keys.foldl (fun m k => mapInsert m k.ID k) []

/-- The per-graph index rebuilding of Decode (graphml.go lines 253-272). -/
def decodeGraph (g : WireGraph) : Graph :=
  { ID := g.ID, EdgeDefault := g.EdgeDefault, Description := g.Description,
    Nodes := g.Nodes, Edges := g.Edges, Data := g.Data,
    edgesDirection :=
      if g.EdgeDefault = "directed" then .directed
      else if g.EdgeDefault = "undirected" then .undirected
      else .default,
    edgesMap := g.Edges.foldl (fun m e => mapInsert m (edgeIdentifier e.Source e.Target) e) [],
    nodesMap := g.Nodes.foldl (fun m n => mapInsert m n.ID n) [] }

/-- GraphML.Decode (graphml.go): reads the wire content into a document with
the given default key type (the configuration of the receiving instance) and
rebuilds every derived index. -/
def Decode (w : Wire) (keyTypeDefault : String) : GraphML :=
  let keys := w.Keys.map (fixKey keyTypeDefault)
  { Description := w.Description,
    Keys := keys,
    Data := w.Data,
    Graphs := w.Graphs.map decodeGraph,
    keysByIdentifier := buildKeysByIdentifier keys,
    keysById := buildKeysById keys,
    keyTypeDefault := keyTypeDefault }

/-- Documents reachable through the public building operations.  Each
operation contributes its post-state, which in Go is the pointed-to document
whether or not the operation returned an error. -/
inductive Reachable : GraphML → Prop where
  | new (description keyTypeDefault : String) :
      Reachable (NewGraphMLWithDefaultKeyType description keyTypeDefault)
  | newWithAttributes (description : String) (attrs : AttrList) :
      Reachable (NewGraphMLWithAttributes description attrs).1
  | registerKey (gml : GraphML) (target name description : String) (kind : GoKind)
      (dv : Option GoValue) (h : Reachable gml) :
      Reachable (RegisterKey gml target name description kind dv).1
  | addGraph (gml : GraphML) (description : String) (ed : EdgeDirection)
      (attrs : AttrList) (h : Reachable gml) :
      Reachable (AddGraph gml description ed attrs).1
  | addNode (gml : GraphML) (gi : Nat) (attrs : AttrList) (description : String)
      (h : Reachable gml) :
      Reachable (AddNode gml gi attrs description).1
  | addEdge (gml : GraphML) (gi : Nat) (s t : String) (attrs : AttrList)
      (ed : EdgeDirection) (description : String) (h : Reachable gml) :
      Reachable (AddEdge gml gi s t attrs ed description).1

/-- A list of ids is exactly the sequence prefix0, prefix1, ... -/
def seqIds (pre : String) (ids : List String) : Prop :=
  ids = (List.range ids.length).map (fun i => pre ++ toString i)

/-- Every Data record of the document, over all holders. -/
def allData (gml : GraphML) : List Data :=
  gml.Data ++ gml.Graphs.flatMap (fun g =>
    g.Data ++ g.Nodes.flatMap Node.Data ++ g.Edges.flatMap Edge.Data)

/-- The id-assignment invariant: graphs, keys, and per-graph nodes and edges
carry sequential prefixed ids reflecting their positions, and no Data record
carries an id at all. -/
def idsOk (gml : GraphML) : Prop :=
  seqIds ("d") (gml.Keys.map Key.ID) ∧
  seqIds ("g") (gml.Graphs.map Graph.ID) ∧
  (∀ g ∈ gml.Graphs, seqIds ("n") (g.Nodes.map Node.ID) ∧
    seqIds ("e") (g.Edges.map Edge.ID)) ∧
  (∀ d ∈ allData gml, d.ID = "")

instance (pre : String) (ids : List String) : Decidable (seqIds pre ids) := by
  unfold seqIds; infer_instance

instance (gml : GraphML) : Decidable (idsOk gml) := by
  unfold idsOk; infer_instance

theorem seqIds_nil (pre : String) : seqIds pre [] := rfl

theorem seqIds_append (pre : String) (ids : List String)
    (h : seqIds pre ids) : seqIds pre (ids ++ [pre ++ toString ids.length]) := by
  unfold seqIds at h ⊢
  rw [List.length_append]
  simp only [List.length_singleton]
  rw [List.range_succ, List.map_append, List.map_singleton, ← h]

/-- A fresh document with a boolean key named flag registered for nodes and
one directed graph, used to exercise the type-mismatch path. -/
def flagBoolDoc : GraphML :=
  (AddGraph (RegisterKey (NewGraphML ("")) ("node") ("flag") ("") GoKind.kBool none).1
    ("") EdgeDirection.directed []).1

/-- C1: the specification says a value whose native type is incompatible with
the declared wire type of the resolved key makes the building operation fail
with a type-mismatch error and produce no Data record.  The code detects the
mismatch inside stringValueIfSupported (first conjunct) but createDataWithKey
drops that error on the floor: its final return statement returns the Data
record with a nil error, so AddNode succeeds and appends a Data record whose
value is the placeholder string unsupported (second conjunct).  The third
conjunct shows the poisoned record then breaks attribute resolution. -/
theorem claim1_type_mismatch_swallowed :
    stringValueIfSupported (GoValue.vDouble ("10.5")) ("boolean") =
      .error ("default value has wrong data type when boolean expected") ∧
    (AddNode flagBoolDoc 0 [(("flag"), some (GoValue.vDouble ("10.5")))] ("n")).2 =
      .ok { ID := "n0", Description := "n",
            Data := [{ ID := "", Key := "d0", Value := "unsupported" }] } ∧
    getAttributesNode (AddNode flagBoolDoc 0
        [(("flag"), some (GoValue.vDouble ("10.5")))] ("n")).1 0 0 =
      some (.error ("strconv.ParseBool: parsing unsupported: invalid syntax")) := by
  refine ⟨rfl, rfl, rfl⟩

/-- A document with a node-scoped double key named z without default and one
directed graph. -/
def zNodeKeyDoc : GraphML :=
  (AddGraph (RegisterKey (NewGraphML ("")) ("node") ("z") ("") GoKind.kFloat64 none).1
    ("") EdgeDirection.directed []).1

/-- C2 counterexample: an AddNode call that fails (the attribute z carries
the NotAValue sentinel, its node-scoped key has no default) does not leave
the document as it was: the attribute a, processed first in lexicographic
order, has implicitly registered a key that survives the failure (the key
count grows from 1 to 2 while no node is added). -/
theorem claim2_counterexample :
    (AddNode zNodeKeyDoc 0 [(("a"), some (GoValue.vInt 5)), (("z"), none)] ("n")).2 =
      .error ("empty attribute without default value: z") ∧
    zNodeKeyDoc.Keys.length = 1 ∧
    (AddNode zNodeKeyDoc 0 [(("a"), some (GoValue.vInt 5)), (("z"), none)] ("n")).1.Keys.length = 2 ∧
    (AddNode zNodeKeyDoc 0 [(("a"), some (GoValue.vInt 5)), (("z"), none)] ("n")).1.Graphs.map
      (fun g => g.Nodes) = [[]] := by
  refine ⟨rfl, rfl, rfl, rfl⟩

/-- A document with a node-scoped double key named weight with default 1.0
and one directed graph: the literal scenario of claim C3. -/
def weightNodeDoc : GraphML :=
  (AddGraph (RegisterKey (NewGraphML ("")) ("node") ("weight") ("")
    GoKind.kFloat64 (some (GoValue.vDouble ("1")))).1 ("") EdgeDirection.directed []).1

/-- C3 counterexample: with the key registered at scope node exactly as the
claim states, AddNode supplying the NotAValue sentinel for weight fails:
createDataWithKey substitutes the stored default only when the target of the
key is all, and errors for every other scope. -/
theorem claim3_counterexample :
    (AddNode weightNodeDoc 0 [(("weight"), none)] ("n")).2 =
      .error ("empty attribute without default value: weight") := rfl

/-- The C3 scenario with the key scope changed from node to all. -/
def weightAllDoc : GraphML :=
  (AddGraph (RegisterKey (NewGraphML ("")) ("all") ("weight") ("")
    GoKind.kFloat64 (some (GoValue.vDouble ("1")))).1 ("") EdgeDirection.directed []).1

/-- C3 amended: with the weight key registered at scope all (instead of
node), AddNode supplying the NotAValue sentinel succeeds, stores the
rendered default 1 in the Data record, and the resolved attribute map of the
node binds weight to the double value 1. -/
theorem claim3_amended :
    (AddNode weightAllDoc 0 [(("weight"), none)] ("n")).2 =
      .ok { ID := "n0", Description := "n",
            Data := [{ ID := "", Key := "d0", Value := "1" }] } ∧
    getAttributesNode (AddNode weightAllDoc 0 [(("weight"), none)] ("n")).1 0 0 =
      some (.ok [(("weight"), GoValue.vDouble ("1"))]) := by
  refine ⟨rfl, rfl⟩

/-- C4 counterexample: after registering the key (w, node), registering
(w, all) is claimed to fail with DuplicateKey, but it succeeds: the scoped
lookup for target all consults only the identifier w_for_all, which the
node-scoped key does not occupy. -/
theorem claim4_counterexample :
    (RegisterKey (RegisterKey (NewGraphML ("")) ("node") ("w") ("") GoKind.kString none).1
      ("all") ("w") ("") GoKind.kString none).2 =
      .ok { ID := "d1", Target := "all", Name := "w", KeyType := "string",
            Description := "", DefaultValue := "" } := rfl

/-- C4 amended: only one direction of the uniqueness claim holds.  Whenever a
key with target all and the given name is registered (present in the scoped
identifier index under name_for_all), RegisterKey for that name fails with
the duplicate-key error at every target scope, specific or not, and leaves
the document unchanged. -/
theorem claim4_amended (gml : GraphML) (name target description : String)
    (kind : GoKind) (dv : Option GoValue) (k : Key)
    (h : lookupMap gml.keysByIdentifier (keyIdentifier name ("all")) = some k) :
    (RegisterKey gml target name description kind dv).2 =
      .error ("key with given name already registered: " ++ name) ∧
    (RegisterKey gml target name description kind dv).1 = gml := by
  unfold RegisterKey GetKey
  cases hx : lookupMap gml.keysByIdentifier (keyIdentifier name target) with
  | none => rw [h]; exact ⟨rfl, rfl⟩
  | some k2 => exact ⟨rfl, rfl⟩

/-- Witness for claim4_amended at a concrete document. -/
theorem claim4_witness :
    (RegisterKey (RegisterKey (NewGraphML ("")) ("all") ("w") ("") GoKind.kString none).1
      ("node") ("w") ("") GoKind.kString none).2 =
      .error ("key with given name already registered: " ++ "w") :=
  (claim4_amended (RegisterKey (NewGraphML ("")) ("all") ("w") ("") GoKind.kString none).1
    ("w") ("node") ("") GoKind.kString none
    { ID := "d0", Target := "all", Name := "w", KeyType := "string",
      Description := "", DefaultValue := "" } rfl).1

/-- C6 counterexample: the first Data record produced by a building operation
carries the empty identifier, not d0: createDataWithKey never assigns the ID
field of a Data record. -/
theorem claim6_counterexample :
    (AddGraph (NewGraphML ("")) ("") EdgeDirection.directed
      [(("a"), some (GoValue.vStr ("x")))]).1.Graphs.map Graph.Data =
      [[{ ID := "", Key := "d0", Value := "x" }]] := rfl

/-- A document with one key registered with an empty target scope. -/
def emptyTargetDoc : GraphML :=
  (RegisterKey (NewGraphML ("")) ("") ("k") ("") GoKind.kString none).1

/-- C9 counterexample: a document built through the public RegisterKey with
an empty target scope does not round-trip.  The empty target applies to no
element, so the resolved attribute map of the root is empty; on the wire the
for attribute is omitted (omitempty) and Decode defaults the scope to all,
after which the string-typed key gap-fills the root attribute map with the
empty string. -/
theorem claim9_counterexample :
    getAttributesRoot emptyTargetDoc = .ok [] ∧
    getAttributesRoot (Decode (Encode emptyTargetDoc) ("string")) =
      .ok [(("k"), GoValue.vStr (""))] := by
  refine ⟨rfl, rfl⟩

/-- The node-scoped string key of the duplicate-Data counterexample. -/
def dupDataKey : Key :=
  { ID := "d0", Target := "node", Name := "k", KeyType := "string",
    Description := "", DefaultValue := "" }

/-- The node of the duplicate-Data counterexample: it carries two Data
records for the same key, as a handwritten GraphML stream may legitimately
contain. -/
def dupDataNode : Node :=
  { ID := "n0", Description := "",
    Data := [{ ID := "", Key := "d0", Value := "a" },
             { ID := "", Key := "d0", Value := "b" }] }

/-- The wire content of the duplicate-Data counterexample. -/
def dupDataWire : Wire :=
  { Description := "",
    Keys := [dupDataKey],
    Data := [],
    Graphs := [{ ID := "g0", EdgeDefault := "directed", Description := "",
                 Nodes := [dupDataNode], Edges := [], Data := [] }] }

/-- The decoded document of the duplicate-Data counterexample. -/
def dupDataDoc : GraphML :=
  Decode dupDataWire ("string")

/-- C5 counterexample: RemoveKey is not a total cascade.  On an element
holding two Data records for the removed key, removeAttributeFromData strips
only the first record, so a Data record referencing the removed key survives
the removal. -/
theorem claim5_counterexample :
    (RemoveKey dupDataDoc dupDataKey).map
      (fun g => g.Graphs.map (fun gr => gr.Nodes.map Node.Data)) =
      .ok [[[{ ID := "", Key := "d0", Value := "b" }]]] := rfl

theorem RegisterKey_fst_spec (gml : GraphML) (target name description : String)
    (kind : GoKind) (dv : Option GoValue) :
    (RegisterKey gml target name description kind dv).1 = gml ∨
    ∃ key : Key, key.ID = "d" ++ toString gml.Keys.length ∧
      (RegisterKey gml target name description kind dv).1 = addKey gml key := by
  unfold RegisterKey
  split
  · left; rfl
  · split
    · left; rfl
    · split
      · left; rfl
      · right; exact ⟨_, rfl, rfl⟩

theorem RegisterKey_fst_Graphs (gml : GraphML) (target name description : String)
    (kind : GoKind) (dv : Option GoValue) :
    (RegisterKey gml target name description kind dv).1.Graphs = gml.Graphs ∧
    (RegisterKey gml target name description kind dv).1.Data = gml.Data := by
  rcases RegisterKey_fst_spec gml target name description kind dv with h | ⟨key, _, h⟩ <;>
    rw [h] <;> exact ⟨rfl, rfl⟩

theorem createDataLoop_fst_Graphs (attrs : AttrList) (target : String) :
    ∀ (names : List String) (gml : GraphML) (acc : List Data),
      (createDataLoop attrs target gml names acc).1.Graphs = gml.Graphs ∧
      (createDataLoop attrs target gml names acc).1.Data = gml.Data := by
  intro names
  induction names with
  | nil => intro gml acc; exact ⟨rfl, rfl⟩
  | cons name rest ih =>
    intro gml acc
    simp only [createDataLoop]
    cases hk : GetKey gml name target with
    | some keyFunc =>
      dsimp only
      cases hc : createDataWithKey ((lookupMap attrs name).getD none) keyFunc with
      | error e => exact ⟨rfl, rfl⟩
      | ok d => exact ih gml (acc ++ [d])
    | none =>
      dsimp only
      cases hv : (lookupMap attrs name).getD none with
      | none => exact ⟨rfl, rfl⟩
      | some v =>
        dsimp only
        cases hr : RegisterKey gml target name ("") (kindOf v) none with
        | mk gml2 r =>
          have hpres := RegisterKey_fst_Graphs gml target name ("") (kindOf v) none
          rw [hr] at hpres
          cases r with
          | error e => exact hpres
          | ok keyFunc =>
            dsimp only
            cases hc : createDataWithKey (some v) keyFunc with
            | error e => exact hpres
            | ok d =>
              dsimp only
              have h2 := ih gml2 (acc ++ [d])
              exact ⟨h2.1.trans hpres.1, h2.2.trans hpres.2⟩

theorem createDataAttributes_fst_Graphs (gml : GraphML) (attrs : AttrList) (target : String) :
    (createDataAttributes gml attrs target).1.Graphs = gml.Graphs ∧
    (createDataAttributes gml attrs target).1.Data = gml.Data :=
  createDataLoop_fst_Graphs attrs target (sortStrings (attrs.map Prod.fst)) gml []

/-- C2 amended: a failed AddNode or AddEdge leaves every element of the
document unchanged - the graphs (hence all nodes, edges and their Data) and
the root Data are exactly as before the call, so no Data record is appended
and no element id is consumed - and a failed RegisterKey leaves the document
entirely unchanged; however, as claim2_counterexample shows, keys implicitly
registered for attributes processed before the failing one survive a failed
AddNode or AddEdge. -/
theorem claim2_amended :
    (∀ (gml : GraphML) (gi : Nat) (attrs : AttrList) (desc e : String),
      (AddNode gml gi attrs desc).2 = .error e →
      (AddNode gml gi attrs desc).1.Graphs = gml.Graphs ∧
      (AddNode gml gi attrs desc).1.Data = gml.Data) ∧
    (∀ (gml : GraphML) (gi : Nat) (a b : String) (attrs : AttrList)
      (ed : EdgeDirection) (desc e : String),
      (AddEdge gml gi a b attrs ed desc).2 = .error e →
      (AddEdge gml gi a b attrs ed desc).1.Graphs = gml.Graphs ∧
      (AddEdge gml gi a b attrs ed desc).1.Data = gml.Data) ∧
    (∀ (gml : GraphML) (target name description : String) (kind : GoKind)
      (dv : Option GoValue) (e : String),
      (RegisterKey gml target name description kind dv).2 = .error e →
      (RegisterKey gml target name description kind dv).1 = gml) := by
  refine ⟨?_, ?_, ?_⟩
  · intro gml gi attrs desc e herr
    unfold AddNode at herr ⊢
    cases hg : gml.Graphs.get? gi with
    | none => exact ⟨rfl, rfl⟩
    | some gr =>
      rw [hg] at herr
      dsimp only at herr ⊢
      cases hc : createDataAttributes gml attrs ("node") with
      | mk gml2 r =>
        have hpres := createDataAttributes_fst_Graphs gml attrs ("node")
        rw [hc] at hpres herr
        cases r with
        | error e2 => exact hpres
        | ok data => exact absurd herr (by simp)
  · intro gml gi a b attrs ed desc e herr
    unfold AddEdge at herr ⊢
    cases hg : gml.Graphs.get? gi with
    | none => exact ⟨rfl, rfl⟩
    | some gr =>
      rw [hg] at herr
      dsimp only at herr ⊢
      cases hex : edgeExists gr a b ed with
      | true =>
        rw [hex] at herr
        rw [if_pos rfl]
        exact ⟨rfl, rfl⟩
      | false =>
        rw [hex] at herr
        rw [if_neg (by simp)]
        simp only [if_neg (by simp : ¬(false = true))] at herr
        cases hc : createDataAttributes gml attrs ("edge") with
        | mk gml2 r =>
          have hpres := createDataAttributes_fst_Graphs gml attrs ("edge")
          rw [hc] at hpres herr
          cases r with
          | error e2 => exact hpres
          | ok data => exact absurd herr (by simp)
  · intro gml target name description kind dv e herr
    unfold RegisterKey at herr ⊢
    cases hk : GetKey gml name target with
    | some k => rfl
    | none =>
      simp only [hk] at herr ⊢
      cases ht : typeNameForKind kind with
      | error e2 => simp only [ht] at herr ⊢
      | ok kt =>
        simp only [ht] at herr ⊢
        cases hd : registerDefault dv kt with
        | error e2 => simp only [hd] at herr ⊢
        | ok ds => simp only [hd] at herr; exact absurd herr (by simp)

/-- Witness for claim2_amended: concrete failing AddNode, AddEdge and
RegisterKey calls. -/
theorem claim2_witness :
    ((AddNode zNodeKeyDoc 0 [(("z"), none)] ("n")).1.Graphs = zNodeKeyDoc.Graphs ∧
      (AddNode zNodeKeyDoc 0 [(("z"), none)] ("n")).1.Data = zNodeKeyDoc.Data) ∧
    ((AddNode zNodeKeyDoc 0 [(("z"), none)] ("n")).2 =
      .error ("empty attribute without default value: z")) ∧
    ((RegisterKey (RegisterKey (NewGraphML ("")) ("all") ("w") ("") GoKind.kString none).1
        ("node") ("w") ("") GoKind.kString none).1 =
      (RegisterKey (NewGraphML ("")) ("all") ("w") ("") GoKind.kString none).1) := by
  refine ⟨claim2_amended.1 zNodeKeyDoc 0 [(("z"), none)] ("n")
    ("empty attribute without default value: z") rfl, rfl, ?_⟩
  exact claim2_amended.2.2 (RegisterKey (NewGraphML ("")) ("all") ("w") ("") GoKind.kString none).1
    ("node") ("w") ("") GoKind.kString none
    ("key with given name already registered: w") rfl

/-- C8: the value-selection step of attribute resolution.  For each Data
record: the own string value of the record is used when non-empty; otherwise,
for a non-string key, the default of the key is used when non-empty;
otherwise the resolution fails with the no-value-no-default error if and only
if the wire type of the key is not string, and for a string-typed key the
empty value is legal and resolves (through valueByType) to the empty string.
The last conjunct states the failure at the level of attributesForData. -/
theorem claim8_value_resolution (d : Data) (k : Key) :
    (d.Value ≠ "" → resolveDataValue d k = .ok d.Value) ∧
    (d.Value = "" → k.KeyType ≠ "string" → k.DefaultValue ≠ "" →
      resolveDataValue d k = .ok k.DefaultValue) ∧
    (d.Value = "" → k.DefaultValue = "" →
      (resolveDataValue d k =
          .error ("data has no value and key id: " ++ d.Key ++ " has no default value") ↔
        k.KeyType ≠ "string")) ∧
    (d.Value = "" → k.KeyType = "string" →
      resolveDataValue d k = .ok ("") ∧
      ∀ dflt, valueByType ("") ("string") dflt = .ok (GoValue.vStr (""))) ∧
    (∀ (gml : GraphML) (target : String), lookupMap gml.keysById d.Key = some k →
      d.Value = "" → k.KeyType ≠ "string" → k.DefaultValue = "" →
      attributesForData [d] target gml =
        .error ("data has no value and key id: " ++ d.Key ++ " has no default value")) := by
  refine ⟨?_, ?_, ?_, ?_, ?_⟩
  · intro hv
    unfold resolveDataValue
    rw [if_neg (fun h => hv h.1)]
  · intro hv ht hd
    unfold resolveDataValue
    rw [if_pos ⟨hv, ht⟩, if_pos hd]
  · intro hv hd
    constructor
    · intro he ht
      unfold resolveDataValue at he
      rw [if_neg (fun h => h.2 ht)] at he
      exact Except.noConfusion he
    · intro ht
      unfold resolveDataValue
      rw [if_pos ⟨hv, ht⟩, if_neg (fun h => h hd)]
  · intro hv ht
    refine ⟨?_, fun dflt => rfl⟩
    unfold resolveDataValue
    rw [if_neg (fun h => h.2 ht), hv]
  · intro gml target hl hv ht hd
    have herr : resolveDataValue d k =
        .error ("data has no value and key id: " ++ d.Key ++ " has no default value") := by
      unfold resolveDataValue
      rw [if_pos ⟨hv, ht⟩, if_neg (fun h => h hd)]
    unfold attributesForData dataPhase
    rw [hl]
    dsimp only
    rw [herr]

/-- Witness for claim8_value_resolution at concrete records and keys. -/
theorem claim8_witness :
    resolveDataValue { ID := "", Key := "d0", Value := "7" }
      { ID := "d0", Target := "all", Name := "a", KeyType := "int",
        Description := "", DefaultValue := "" } = .ok ("7") ∧
    resolveDataValue { ID := "", Key := "d0", Value := "" }
      { ID := "d0", Target := "all", Name := "a", KeyType := "int",
        Description := "", DefaultValue := "3" } = .ok ("3") ∧
    resolveDataValue { ID := "", Key := "d0", Value := "" }
      { ID := "d0", Target := "all", Name := "a", KeyType := "int",
        Description := "", DefaultValue := "" } =
      .error ("data has no value and key id: " ++ "d0" ++ " has no default value") ∧
    resolveDataValue { ID := "", Key := "d0", Value := "" }
      { ID := "d0", Target := "all", Name := "a", KeyType := "string",
        Description := "", DefaultValue := "" } = .ok ("") := by
  refine ⟨(claim8_value_resolution { ID := "", Key := "d0", Value := "7" }
      { ID := "d0", Target := "all", Name := "a", KeyType := "int",
        Description := "", DefaultValue := "" }).1 (by decide),
    (claim8_value_resolution { ID := "", Key := "d0", Value := "" }
      { ID := "d0", Target := "all", Name := "a", KeyType := "int",
        Description := "", DefaultValue := "3" }).2.1 rfl (by decide) (by decide),
    ((claim8_value_resolution { ID := "", Key := "d0", Value := "" }
      { ID := "d0", Target := "all", Name := "a", KeyType := "int",
        Description := "", DefaultValue := "" }).2.2.1 rfl rfl).2 (by decide),
    ((claim8_value_resolution { ID := "", Key := "d0", Value := "" }
      { ID := "d0", Target := "all", Name := "a", KeyType := "string",
        Description := "", DefaultValue := "" }).2.2.2.1 rfl rfl).1⟩

theorem AddEdge_ok_spec (gml : GraphML) (gi : Nat) (a b : String) (attrs : AttrList)
    (ed : EdgeDirection) (desc : String) (gml1 : GraphML) (e1 : Edge) (gr : Graph)
    (hg : gml.Graphs.get? gi = some gr)
    (h : AddEdge gml gi a b attrs ed desc = (gml1, .ok e1)) :
    e1.Source = a ∧ e1.Target = b ∧
    gml1.Graphs.get? gi = some
      { gr with Edges := gr.Edges ++ [e1],
                edgesMap := mapInsert gr.edgesMap (edgeIdentifier a b) e1 } := by
  unfold AddEdge at h
  rw [hg] at h
  dsimp only at h
  cases hex : edgeExists gr a b ed with
  | true =>
    rw [hex, if_pos rfl] at h
    exact absurd (congrArg Prod.snd h) (by simp)
  | false =>
    rw [hex, if_neg (by simp)] at h
    cases hc : createDataAttributes gml attrs ("edge") with
    | mk gml2 r =>
      rw [hc] at h
      cases r with
      | error e => exact absurd (congrArg Prod.snd h) (by simp)
      | ok data =>
        dsimp only at h
        have hpres := (createDataAttributes_fst_Graphs gml attrs ("edge")).1
        rw [hc] at hpres
        injection h with hfst hsnd
        injection hsnd with he
        subst he
        subst hfst
        refine ⟨rfl, rfl, ?_⟩
        show (gml2.Graphs.set gi _).get? gi = _
        rw [List.get?_set_eq, hpres, hg]
        rfl

theorem edgeExists_reverse_true (gr : Graph) (a b : String) (d2 : EdgeDirection) (e1 : Edge)
    (hdir : gr.edgesDirection = EdgeDirection.undirected)
    (hfwd : lookupMap gr.edgesMap (edgeIdentifier a b) = some e1) :
    edgeExists gr b a d2 = true := by
  unfold edgeExists
  dsimp only
  by_cases hba : (lookupMap gr.edgesMap (edgeIdentifier b a)).isSome = true
  · rw [if_neg (fun hcon => hcon.1 hba)]
    exact hba
  · rw [if_pos ⟨hba, Or.inr hdir⟩, hfwd]
    rfl

/-- C7: edge symmetry.  First conjunct: in a graph whose default direction is
undirected, a successful AddEdge(a, b) makes any following AddEdge(b, a) fail
with the edge-already-exists error, whatever the per-edge direction of either
call.  Second conjunct: in a graph whose default direction is directed and
with no undirected per-edge override, after a successful AddEdge(a, b) the
call AddEdge(b, a) succeeds (its attribute rendering succeeding), the two
edges are independently retrievable through GetEdge under their own
(source, target) pairs, are distinct, and the edge index is otherwise
untouched: every identifier other than the two pairs still resolves as it
did before either call. -/
theorem claim7_edge_symmetry :
    (∀ (gml : GraphML) (gi : Nat) (gr : Graph) (a b : String)
      (attrs1 attrs2 : AttrList) (d1 d2 : EdgeDirection) (s1 s2 : String)
      (gml1 : GraphML) (e1 : Edge),
      gml.Graphs.get? gi = some gr →
      gr.edgesDirection = EdgeDirection.undirected →
      AddEdge gml gi a b attrs1 d1 s1 = (gml1, .ok e1) →
      (AddEdge gml1 gi b a attrs2 d2 s2).2 =
        .error ("edge already added to the graph")) ∧
    (∀ (gml : GraphML) (gi : Nat) (gr : Graph) (a b : String)
      (attrs1 attrs2 : AttrList) (d1 d2 : EdgeDirection) (s1 s2 : String)
      (gml1 gml2 : GraphML) (e1 : Edge) (ds : List Data),
      gml.Graphs.get? gi = some gr →
      gr.edgesDirection = EdgeDirection.directed →
      d1 ≠ EdgeDirection.undirected → d2 ≠ EdgeDirection.undirected →
      lookupMap gr.edgesMap (edgeIdentifier b a) = none →
      edgeIdentifier b a ≠ edgeIdentifier a b →
      AddEdge gml gi a b attrs1 d1 s1 = (gml1, .ok e1) →
      createDataAttributes gml1 attrs2 ("edge") = (gml2, .ok ds) →
      ∃ (gml3 : GraphML) (e2 : Edge) (gr3 : Graph),
        AddEdge gml1 gi b a attrs2 d2 s2 = (gml3, .ok e2) ∧
        gml3.Graphs.get? gi = some gr3 ∧
        GetEdge gr3 a b = some e1 ∧
        GetEdge gr3 b a = some e2 ∧
        e1 ≠ e2 ∧
        (∀ x, x ≠ edgeIdentifier a b → x ≠ edgeIdentifier b a →
          lookupMap gr3.edgesMap x = lookupMap gr.edgesMap x)) := by
  constructor
  · intro gml gi gr a b attrs1 attrs2 d1 d2 s1 s2 gml1 e1 hg hdir hok
    obtain ⟨hsrc, htgt, hget⟩ := AddEdge_ok_spec gml gi a b attrs1 d1 s1 gml1 e1 gr hg hok
    unfold AddEdge
    rw [hget]
    dsimp only
    have hEx : edgeExists
        { gr with Edges := gr.Edges ++ [e1],
                  edgesMap := mapInsert gr.edgesMap (edgeIdentifier a b) e1 } b a d2 = true := by
      refine edgeExists_reverse_true _ a b d2 e1 ?_ ?_
      · exact hdir
      · rw [lookupMap_mapInsert, if_pos rfl]
    rw [hEx, if_pos rfl]
  · intro gml gi gr a b attrs1 attrs2 d1 d2 s1 s2 gml1 gml2 e1 ds
      hg hdir hd1 hd2 hrev hidne hok hca
    obtain ⟨hsrc, htgt, hget⟩ := AddEdge_ok_spec gml gi a b attrs1 d1 s1 gml1 e1 gr hg hok
    have hanb : a ≠ b := fun hab => hidne (by rw [hab])
    have hlk : lookupMap (mapInsert gr.edgesMap (edgeIdentifier a b) e1)
        (edgeIdentifier b a) = none := by
      rw [lookupMap_mapInsert, if_neg hidne, hrev]
    unfold AddEdge
    rw [hget]
    dsimp only
    have hEx : edgeExists
        { gr with Edges := gr.Edges ++ [e1],
                  edgesMap := mapInsert gr.edgesMap (edgeIdentifier a b) e1 } b a d2 = false := by
      unfold edgeExists
      dsimp only
      rw [hlk]
      rw [if_neg (fun hcon => hcon.2.elim hd2
        (fun h2 => EdgeDirection.noConfusion (hdir.symm.trans h2)))]
      rfl
    rw [hEx, if_neg (by simp), hca]
    dsimp only
    have hpres2 := (createDataAttributes_fst_Graphs gml1 attrs2 ("edge")).1
    rw [hca] at hpres2
    refine
      ⟨_,
        { ID := "e" ++ toString (gr.Edges ++ [e1]).length, Source := b, Target := a,
          Directed := directedLabel d2,
          Description := s2, Data := ds },
        { gr with
          Edges := gr.Edges ++ [e1] ++
            [{ ID := "e" ++ toString (gr.Edges ++ [e1]).length, Source := b, Target := a,
               Directed := directedLabel d2,
               Description := s2, Data := ds }],
          edgesMap := mapInsert (mapInsert gr.edgesMap (edgeIdentifier a b) e1)
            (edgeIdentifier b a)
            { ID := "e" ++ toString (gr.Edges ++ [e1]).length, Source := b, Target := a,
              Directed := directedLabel d2,
              Description := s2, Data := ds } },
        rfl, ?_, ?_, ?_, ?_, ?_⟩
    · rw [List.get?_set_eq, hpres2, hget]
      rfl
    · unfold GetEdge
      rw [lookupMap_mapInsert, if_neg (fun h => hidne h.symm),
          lookupMap_mapInsert, if_pos rfl]
    · unfold GetEdge
      rw [lookupMap_mapInsert, if_pos rfl]
    · intro he
      apply hanb
      rw [← hsrc, he]
    · intro x hx1 hx2
      rw [lookupMap_mapInsert, if_neg hx2, lookupMap_mapInsert, if_neg hx1]

/-- A fresh document holding one undirected graph with two nodes. -/
def undirDoc : GraphML :=
  (AddNode (AddNode (AddGraph (NewGraphML ("")) ("") EdgeDirection.undirected []).1
    0 [] ("")).1 0 [] ("")).1

/-- A fresh document holding one directed graph with two nodes. -/
def dirDoc : GraphML :=
  (AddNode (AddNode (AddGraph (NewGraphML ("")) ("") EdgeDirection.directed []).1
    0 [] ("")).1 0 [] ("")).1

/-- Witness for claim7_edge_symmetry on concrete two-node graphs. -/
theorem claim7_witness :
    ((AddEdge (AddEdge undirDoc 0 ("n0") ("n1") [] EdgeDirection.default ("")).1
      0 ("n1") ("n0") [] EdgeDirection.default ("")).2 =
      .error ("edge already added to the graph")) ∧
    (∃ (gml3 : GraphML) (e2 : Edge) (gr3 : Graph),
      AddEdge (AddEdge dirDoc 0 ("n0") ("n1") [] EdgeDirection.default ("")).1
        0 ("n1") ("n0") [] EdgeDirection.default ("") = (gml3, .ok e2) ∧
      gml3.Graphs.get? 0 = some gr3 ∧
      GetEdge gr3 ("n0") ("n1") = some
        { ID := "e0", Source := "n0", Target := "n1", Directed := "",
          Description := "", Data := [] } ∧
      GetEdge gr3 ("n1") ("n0") = some e2 ∧
      ({ ID := "e0", Source := "n0", Target := "n1", Directed := "",
         Description := "", Data := [] } : Edge) ≠ e2 ∧
      (∀ x, x ≠ edgeIdentifier ("n0") ("n1") → x ≠ edgeIdentifier ("n1") ("n0") →
        lookupMap gr3.edgesMap x = lookupMap (undirDoc.Graphs.getD 0 default).edgesMap x)) := by
  constructor
  · exact claim7_edge_symmetry.1 undirDoc 0 (undirDoc.Graphs.getD 0 default)
      ("n0") ("n1") [] [] EdgeDirection.default EdgeDirection.default ("") ("")
      (AddEdge undirDoc 0 ("n0") ("n1") [] EdgeDirection.default ("")).1
      { ID := "e0", Source := "n0", Target := "n1", Directed := "",
        Description := "", Data := [] }
      rfl rfl rfl
  · exact claim7_edge_symmetry.2 dirDoc 0 (dirDoc.Graphs.getD 0 default)
      ("n0") ("n1") [] [] EdgeDirection.default EdgeDirection.default ("") ("")
      (AddEdge dirDoc 0 ("n0") ("n1") [] EdgeDirection.default ("")).1
      (AddEdge dirDoc 0 ("n0") ("n1") [] EdgeDirection.default ("")).1
      { ID := "e0", Source := "n0", Target := "n1", Directed := "",
        Description := "", Data := [] }
      []
      rfl rfl (by decide) (by decide) rfl (by decide) rfl rfl

theorem fillDefaults_mono (gml : GraphML) :
    ∀ (ks : List Key) (attr m : List (String × GoValue)) (n : String),
      fillDefaults gml ks attr = .ok m → (lookupMap attr n).isSome = true →
      (lookupMap m n).isSome = true := by
  intro ks
  induction ks with
  | nil =>
    intro attr m n h hs
    injection h with h
    rw [← h]; exact hs
  | cons k0 rest ih =>
    intro attr m n h hs
    rw [fillDefaults] at h
    split at h
    · exact ih attr m n h hs
    · cases hl : lookupMap attr k0.Name with
      | some v => rw [hl] at h; exact ih attr m n h hs
      | none =>
        rw [hl] at h
        cases hv : valueByType k0.DefaultValue k0.KeyType gml.keyTypeDefault with
        | error e => rw [hv] at h; exact Except.noConfusion h
        | ok v =>
          rw [hv] at h
          refine ih _ m n h ?_
          rw [lookupMap_mapInsert]
          by_cases hn : n = k0.Name
          · rw [if_pos hn]; rfl
          · rw [if_neg hn]; exact hs

theorem fillDefaults_stable (gml : GraphML) :
    ∀ (ks : List Key) (attr m : List (String × GoValue)) (n : String) (v : GoValue),
      fillDefaults gml ks attr = .ok m → lookupMap attr n = some v →
      lookupMap m n = some v := by
  intro ks
  induction ks with
  | nil =>
    intro attr m n v h hs
    injection h with h
    rw [← h]; exact hs
  | cons k0 rest ih =>
    intro attr m n v h hs
    rw [fillDefaults] at h
    split at h
    · exact ih attr m n v h hs
    · cases hl : lookupMap attr k0.Name with
      | some w => rw [hl] at h; exact ih attr m n v h hs
      | none =>
        rw [hl] at h
        cases hv : valueByType k0.DefaultValue k0.KeyType gml.keyTypeDefault with
        | error e => rw [hv] at h; exact Except.noConfusion h
        | ok w =>
          rw [hv] at h
          refine ih _ m n v h ?_
          rw [lookupMap_mapInsert]
          by_cases hn : n = k0.Name
          · rw [hn] at hs; rw [hs] at hl; exact Option.noConfusion hl
          · rw [if_neg hn]; exact hs

theorem fillDefaults_present (gml : GraphML) :
    ∀ (ks : List Key) (attr m : List (String × GoValue)) (k : Key),
      fillDefaults gml ks attr = .ok m → k ∈ ks →
      (k.DefaultValue ≠ "" ∨ k.KeyType = "string") →
      (lookupMap m k.Name).isSome = true := by
  intro ks
  induction ks with
  | nil => intro attr m k h hm; exact absurd hm (List.not_mem_nil k)
  | cons k0 rest ih =>
    intro attr m k h hm hcond
    rw [fillDefaults] at h
    rcases List.mem_cons.mp hm with hk | hk
    · subst hk
      rw [if_neg (fun hskip => hcond.elim (fun h1 => h1 hskip.1) hskip.2)] at h
      cases hl : lookupMap attr k.Name with
      | some w =>
        rw [hl] at h
        have := fillDefaults_stable gml rest attr m k.Name w h hl
        rw [this]; rfl
      | none =>
        rw [hl] at h
        cases hv : valueByType k.DefaultValue k.KeyType gml.keyTypeDefault with
        | error e => rw [hv] at h; exact Except.noConfusion h
        | ok w =>
          rw [hv] at h
          have := fillDefaults_stable gml rest _ m k.Name w h
            (by rw [lookupMap_mapInsert, if_pos rfl])
          rw [this]; rfl
    · split at h
      · exact ih attr m k h hk hcond
      · cases hl : lookupMap attr k0.Name with
        | some w => rw [hl] at h; exact ih attr m k h hk hcond
        | none =>
          rw [hl] at h
          cases hv : valueByType k0.DefaultValue k0.KeyType gml.keyTypeDefault with
          | error e => rw [hv] at h; exact Except.noConfusion h
          | ok w => rw [hv] at h; exact ih _ m k h hk hcond

theorem fillDefaults_value (gml : GraphML) :
    ∀ (ks : List Key) (attr m : List (String × GoValue)) (k : Key),
      fillDefaults gml ks attr = .ok m → k ∈ ks →
      (∀ k2 ∈ ks, k2.Name = k.Name → k2 = k) →
      lookupMap attr k.Name = none →
      (k.DefaultValue ≠ "" ∨ k.KeyType = "string") →
      ∃ v, valueByType k.DefaultValue k.KeyType gml.keyTypeDefault = .ok v ∧
        lookupMap m k.Name = some v := by
  intro ks
  induction ks with
  | nil => intro attr m k h hm; exact absurd hm (List.not_mem_nil k)
  | cons k0 rest ih =>
    intro attr m k h hm huniq hnone hcond
    rw [fillDefaults] at h
    rcases List.mem_cons.mp hm with hk | hk
    · subst hk
      rw [if_neg (fun hskip => hcond.elim (fun h1 => h1 hskip.1) hskip.2), hnone] at h
      cases hv : valueByType k.DefaultValue k.KeyType gml.keyTypeDefault with
      | error e => rw [hv] at h; exact Except.noConfusion h
      | ok w =>
        rw [hv] at h
        exact ⟨w, rfl, fillDefaults_stable gml rest _ m k.Name w h
          (by rw [lookupMap_mapInsert, if_pos rfl])⟩
    · have huniq2 : ∀ k2 ∈ rest, k2.Name = k.Name → k2 = k :=
        fun k2 h2 => huniq k2 (List.mem_cons_of_mem k0 h2)
      split at h
      · exact ih attr m k h hk huniq2 hnone hcond
      · cases hl : lookupMap attr k0.Name with
        | some w => rw [hl] at h; exact ih attr m k h hk huniq2 hnone hcond
        | none =>
          rw [hl] at h
          cases hv : valueByType k0.DefaultValue k0.KeyType gml.keyTypeDefault with
          | error e => rw [hv] at h; exact Except.noConfusion h
          | ok w =>
            rw [hv] at h
            by_cases hname : k0.Name = k.Name
            · have hk0 : k0 = k := huniq k0 (List.mem_cons_self k0 rest) hname
              subst hk0
              exact ⟨w, hv, fillDefaults_stable gml rest _ m k0.Name w h
                (by rw [lookupMap_mapInsert, if_pos rfl])⟩
            · refine ih _ m k h hk huniq2 ?_ hcond
              rw [lookupMap_mapInsert, if_neg (fun hh => hname hh.symm)]
              exact hnone

theorem fillDefaults_absent (gml : GraphML) :
    ∀ (ks : List Key) (attr m : List (String × GoValue)) (n : String),
      fillDefaults gml ks attr = .ok m → lookupMap attr n = none →
      (∀ k2 ∈ ks, k2.Name = n → (k2.DefaultValue = "" ∧ k2.KeyType ≠ "string")) →
      lookupMap m n = none := by
  intro ks
  induction ks with
  | nil =>
    intro attr m n h hnone hall
    injection h with h
    rw [← h]; exact hnone
  | cons k0 rest ih =>
    intro attr m n h hnone hall
    have hall2 : ∀ k2 ∈ rest, k2.Name = n → (k2.DefaultValue = "" ∧ k2.KeyType ≠ "string") :=
      fun k2 h2 => hall k2 (List.mem_cons_of_mem k0 h2)
    rw [fillDefaults] at h
    split at h
    · exact ih attr m n h hnone hall2
    · rename_i hnotskip
      have hname : k0.Name ≠ n := fun hn =>
        hnotskip (hall k0 (List.mem_cons_self k0 rest) hn)
      cases hl : lookupMap attr k0.Name with
      | some w => rw [hl] at h; exact ih attr m n h hnone hall2
      | none =>
        rw [hl] at h
        cases hv : valueByType k0.DefaultValue k0.KeyType gml.keyTypeDefault with
        | error e => rw [hv] at h; exact Except.noConfusion h
        | ok w =>
          rw [hv] at h
          refine ih _ m n h ?_ hall2
          rw [lookupMap_mapInsert, if_neg (fun hh => hname hh.symm)]
          exact hnone

/-- C10: gap filling of attribute resolution.  Let attr1 be the map produced
by the Data records of the element (the first loop of attributesForData) and
m the final resolved map.  Every key applicable to the target scope that has
a non-empty default or is string-typed appears in m; when such a key
contributed no binding in attr1 (and no other applicable key shadows its
name) its entry is the parsed default, and for a string-typed key without a
default that entry is the empty string; a non-string key without a default
that contributed nothing (and whose name no other key fills) is silently
omitted. -/
theorem claim10_gap_filling (gml : GraphML) (ds : List Data) (target : String)
    (attr1 m : List (String × GoValue)) (k : Key)
    (h1 : dataPhase gml ds [] = .ok attr1)
    (h2 : attributesForData ds target gml = .ok m)
    (hk : k ∈ keysForElement gml.Keys target) :
    ((k.DefaultValue ≠ "" ∨ k.KeyType = "string") → (lookupMap m k.Name).isSome = true) ∧
    (lookupMap attr1 k.Name = none →
      (∀ k2 ∈ keysForElement gml.Keys target, k2.Name = k.Name → k2 = k) →
      (k.DefaultValue ≠ "" ∨ k.KeyType = "string") →
      ∃ v, valueByType k.DefaultValue k.KeyType gml.keyTypeDefault = .ok v ∧
        lookupMap m k.Name = some v) ∧
    (k.KeyType = "string" → k.DefaultValue = "" → lookupMap attr1 k.Name = none →
      (∀ k2 ∈ keysForElement gml.Keys target, k2.Name = k.Name → k2 = k) →
      lookupMap m k.Name = some (GoValue.vStr (""))) ∧
    (k.DefaultValue = "" → k.KeyType ≠ "string" → lookupMap attr1 k.Name = none →
      (∀ k2 ∈ keysForElement gml.Keys target, k2.Name = k.Name →
        (k2.DefaultValue = "" ∧ k2.KeyType ≠ "string")) →
      lookupMap m k.Name = none) := by
  have h3 : fillDefaults gml (keysForElement gml.Keys target) attr1 = .ok m := by
    unfold attributesForData at h2
    rw [h1] at h2
    exact h2
  refine ⟨?_, ?_, ?_, ?_⟩
  · intro hcond
    exact fillDefaults_present gml _ attr1 m k h3 hk hcond
  · intro hnone huniq hcond
    exact fillDefaults_value gml _ attr1 m k h3 hk huniq hnone hcond
  · intro hstr hdef hnone huniq
    obtain ⟨v, hv, hm⟩ := fillDefaults_value gml _ attr1 m k h3 hk huniq hnone (Or.inr hstr)
    rw [hstr, hdef] at hv
    have h4 : Except.ok (GoValue.vStr ("")) = Except.ok v := hv
    have hveq : GoValue.vStr ("") = v := by injection h4
    rw [hm, ← hveq]
  · intro hdef hstr hnone hall
    exact fillDefaults_absent gml _ attr1 m k.Name h3 hnone hall

/-- A document with a string key s and an int key i registered for nodes,
both without defaults. -/
def gapDoc : GraphML :=
  (RegisterKey (RegisterKey (NewGraphML ("")) ("node") ("s") ("") GoKind.kString none).1
    ("node") ("i") ("") GoKind.kInt none).1

/-- Witness for claim10_gap_filling: on an element without Data records, the
string key without default resolves to the empty string and the int key
without default is omitted. -/
theorem claim10_witness :
    lookupMap [(("s"), GoValue.vStr (""))]
      (({ ID := "d0", Target := "node", Name := "s", KeyType := "string",
          Description := "", DefaultValue := "" } : Key)).Name =
      some (GoValue.vStr ("")) ∧
    lookupMap [(("s"), GoValue.vStr (""))]
      (({ ID := "d1", Target := "node", Name := "i", KeyType := "int",
          Description := "", DefaultValue := "" } : Key)).Name = none := by
  constructor
  · have h := (claim10_gap_filling gapDoc [] ("node") [] [(("s"), GoValue.vStr (""))]
      { ID := "d0", Target := "node", Name := "s", KeyType := "string",
        Description := "", DefaultValue := "" }
      rfl rfl (by decide)).2.2.1 rfl rfl rfl (by decide)
    exact h
  · have h := (claim10_gap_filling gapDoc [] ("node") [] [(("s"), GoValue.vStr (""))]
      { ID := "d1", Target := "node", Name := "i", KeyType := "int",
        Description := "", DefaultValue := "" }
      rfl rfl (by decide)).2.2.2 rfl (by decide) rfl (by decide)
    exact h

/-- The six GraphML wire type names. -/
def isWireType (t : String) : Prop :=
  t = "boolean" ∨ t = "int" ∨ t = "long" ∨ t = "float" ∨ t = "double" ∨ t = "string"

instance (t : String) : Decidable (isWireType t) := by
  unfold isWireType; infer_instance

theorem isWireType_ne_empty {t : String} (h : isWireType t) : t ≠ "" := by
  rcases h with h | h | h | h | h | h <;> subst h <;> decide

theorem valueByType_indep {t : String} (h : isWireType t) (v d1 d2 : String) :
    valueByType v t d1 = valueByType v t d2 := by
  rcases h with h | h | h | h | h | h <;> subst h <;> rfl

theorem fixKey_id (d : String) (k : Key) (hT : k.Target ≠ "") (hK : k.KeyType ≠ "") :
    fixKey d k = k := by
  unfold fixKey
  rw [if_neg hK, if_neg hT]

theorem map_fixKey_id (d : String) (keys : List Key)
    (h : ∀ k ∈ keys, k.Target ≠ "" ∧ isWireType k.KeyType) :
    keys.map (fixKey d) = keys := by
  induction keys with
  | nil => rfl
  | cons k rest ih =>
    rw [List.map_cons,
      fixKey_id d k (h k (List.mem_cons_self k rest)).1
        (isWireType_ne_empty (h k (List.mem_cons_self k rest)).2),
      ih (fun k2 h2 => h k2 (List.mem_cons_of_mem k h2))]

theorem lookup_foldl_insert_mem (keys : List Key) :
    ∀ (m : List (String × Key)) (i : String) (k : Key),
      lookupMap (keys.foldl (fun m k => mapInsert m k.ID k) m) i = some k →
      k ∈ keys ∨ lookupMap m i = some k := by
  induction keys with
  | nil => intro m i k h; exact Or.inr h
  | cons k0 rest ih =>
    intro m i k h
    rw [List.foldl_cons] at h
    rcases ih (mapInsert m k0.ID k0) i k h with hm | hm
    · exact Or.inl (List.mem_cons_of_mem k0 hm)
    · rw [lookupMap_mapInsert] at hm
      by_cases hi : i = k0.ID
      · rw [if_pos hi] at hm
        injection hm with hm
        exact Or.inl (hm ▸ List.mem_cons_self k0 rest)
      · rw [if_neg hi] at hm
        exact Or.inr hm

theorem lookup_buildKeysById_mem (keys : List Key) (i : String) (k : Key)
    (h : lookupMap (buildKeysById keys) i = some k) : k ∈ keys := by
  rcases lookup_foldl_insert_mem keys [] i k h with hm | hm
  · exact hm
  · exact Option.noConfusion hm

theorem dataPhase_congr (gml1 gml2 : GraphML)
    (hById : gml1.keysById = gml2.keysById)
    (hWire : ∀ i k, lookupMap gml1.keysById i = some k → isWireType k.KeyType) :
    ∀ (ds : List Data) (attr : List (String × GoValue)),
      dataPhase gml1 ds attr = dataPhase gml2 ds attr := by
  intro ds
  induction ds with
  | nil => intro attr; rfl
  | cons d rest ih =>
    intro attr
    rw [dataPhase, dataPhase, ← hById]
    cases hl : lookupMap gml1.keysById d.Key with
    | none => rfl
    | some key =>
      dsimp only
      cases hr : resolveDataValue d key with
      | error e => rfl
      | ok dataValue =>
        dsimp only
        rw [valueByType_indep (hWire d.Key key hl) dataValue
          gml1.keyTypeDefault gml2.keyTypeDefault]
        cases hv : valueByType dataValue key.KeyType gml2.keyTypeDefault with
        | error e => rfl
        | ok value => exact ih (mapInsert attr key.Name value)

theorem fillDefaults_congr (gml1 gml2 : GraphML) :
    ∀ (ks : List Key) (attr : List (String × GoValue)),
      (∀ k ∈ ks, isWireType k.KeyType) →
      fillDefaults gml1 ks attr = fillDefaults gml2 ks attr := by
  intro ks
  induction ks with
  | nil => intro attr h; rfl
  | cons k0 rest ih =>
    intro attr h
    have hrest : ∀ k ∈ rest, isWireType k.KeyType :=
      fun k2 h2 => h k2 (List.mem_cons_of_mem k0 h2)
    rw [fillDefaults, fillDefaults]
    split
    · exact ih attr hrest
    · cases hl : lookupMap attr k0.Name with
      | some v => exact ih attr hrest
      | none =>
        dsimp only
        rw [valueByType_indep (h k0 (List.mem_cons_self k0 rest)) k0.DefaultValue
          gml1.keyTypeDefault gml2.keyTypeDefault]
        cases hv : valueByType k0.DefaultValue k0.KeyType gml2.keyTypeDefault with
        | error e => rfl
        | ok val => exact ih (mapInsert attr k0.Name val) hrest

theorem attributesForData_congr (gml1 gml2 : GraphML) (ds : List Data) (target : String)
    (hKeys : gml1.Keys = gml2.Keys) (hById : gml1.keysById = gml2.keysById)
    (hWire : ∀ i k, lookupMap gml1.keysById i = some k → isWireType k.KeyType)
    (hWireK : ∀ k ∈ gml1.Keys, isWireType k.KeyType) :
    attributesForData ds target gml1 = attributesForData ds target gml2 := by
  unfold attributesForData
  rw [dataPhase_congr gml1 gml2 hById hWire ds []]
  cases dataPhase gml2 ds [] with
  | error e => rfl
  | ok attr =>
    rw [← hKeys]
    exact fillDefaults_congr gml1 gml2 (keysForElement gml1.Keys target) attr
      (fun k hk => hWireK k (List.mem_of_mem_filter hk))

/-- C9 amended: the encode-decode round trip preserves every resolved
attribute map (root, graphs, nodes and edges, including resolution failures)
for every document whose registered keys all carry a non-empty target scope
and one of the six wire types, and whose key-by-id index is the one its key
list induces - properties that hold for every document built through the
public operations unless a key was registered with an empty target scope,
the case of claim9_counterexample.  The decoding side may use any configured
default key type. -/
theorem claim9_amended (gml : GraphML) (dflt : String)
    (hT : ∀ k ∈ gml.Keys, k.Target ≠ "" ∧ isWireType k.KeyType)
    (hById : gml.keysById = buildKeysById gml.Keys) :
    getAttributesRoot (Decode (Encode gml) dflt) = getAttributesRoot gml ∧
    (∀ gi, getAttributesGraph (Decode (Encode gml) dflt) gi = getAttributesGraph gml gi) ∧
    (∀ gi ni, getAttributesNode (Decode (Encode gml) dflt) gi ni =
      getAttributesNode gml gi ni) ∧
    (∀ gi ei, getAttributesEdge (Decode (Encode gml) dflt) gi ei =
      getAttributesEdge gml gi ei) := by
  have hKeysD : (Decode (Encode gml) dflt).Keys = gml.Keys := map_fixKey_id dflt gml.Keys hT
  have hByIdD : (Decode (Encode gml) dflt).keysById = gml.keysById := by
    show buildKeysById ((Encode gml).Keys.map (fixKey dflt)) = gml.keysById
    rw [show (Encode gml).Keys = gml.Keys from rfl, map_fixKey_id dflt gml.Keys hT, ← hById]
  have hWire : ∀ i k, lookupMap (Decode (Encode gml) dflt).keysById i = some k →
      isWireType k.KeyType := by
    intro i k h
    rw [hByIdD, hById] at h
    exact (hT k (lookup_buildKeysById_mem gml.Keys i k h)).2
  have hWireK : ∀ k ∈ (Decode (Encode gml) dflt).Keys, isWireType k.KeyType := by
    intro k hk
    rw [hKeysD] at hk
    exact (hT k hk).2
  have hcongr : ∀ (ds : List Data) (target : String),
      attributesForData ds target (Decode (Encode gml) dflt) =
      attributesForData ds target gml := by
    intro ds target
    exact attributesForData_congr (Decode (Encode gml) dflt) gml ds target
      (hKeysD.trans rfl) hByIdD hWire hWireK
  have hGraphs : (Decode (Encode gml) dflt).Graphs =
      gml.Graphs.map (fun g => decodeGraph
        { ID := g.ID, EdgeDefault := g.EdgeDefault, Description := g.Description,
          Nodes := g.Nodes, Edges := g.Edges, Data := g.Data }) := by
    show ((Encode gml).Graphs.map decodeGraph) = _
    rw [show (Encode gml).Graphs = gml.Graphs.map (fun g =>
      ({ ID := g.ID, EdgeDefault := g.EdgeDefault, Description := g.Description,
         Nodes := g.Nodes, Edges := g.Edges, Data := g.Data } : WireGraph)) from rfl]
    rw [List.map_map]
    rfl
  refine ⟨?_, ?_, ?_, ?_⟩
  · exact hcongr gml.Data ("graphml")
  · intro gi
    unfold getAttributesGraph
    rw [hGraphs, List.get?_map]
    cases gml.Graphs.get? gi with
    | none => rfl
    | some g =>
      simp only [Option.map_some', decodeGraph]
      rw [hcongr g.Data ("graph")]
  · intro gi ni
    unfold getAttributesNode
    rw [hGraphs, List.get?_map]
    cases gml.Graphs.get? gi with
    | none => rfl
    | some g =>
      simp only [Option.map_some', Option.some_bind, decodeGraph]
      cases g.Nodes.get? ni with
      | none => rfl
      | some n =>
        simp only [Option.map_some']
        rw [hcongr n.Data ("node")]
  · intro gi ei
    unfold getAttributesEdge
    rw [hGraphs, List.get?_map]
    cases gml.Graphs.get? gi with
    | none => rfl
    | some g =>
      simp only [Option.map_some', Option.some_bind, decodeGraph]
      cases g.Edges.get? ei with
      | none => rfl
      | some e =>
        simp only [Option.map_some']
        rw [hcongr e.Data ("edge")]

/-- The weight document of claim C3 extended with one node, used as a
round-trip witness. -/
def weightAllNodeDoc : GraphML :=
  (AddNode weightAllDoc 0 [(("weight"), none)] ("n")).1

/-- Witness for claim9_amended on a concretely built document. -/
theorem claim9_witness :
    getAttributesRoot (Decode (Encode weightAllNodeDoc) ("string")) =
      getAttributesRoot weightAllNodeDoc ∧
    getAttributesNode (Decode (Encode weightAllNodeDoc) ("string")) 0 0 =
      getAttributesNode weightAllNodeDoc 0 0 := by
  have h := claim9_amended weightAllNodeDoc ("string") (by decide) (by decide)
  exact ⟨h.1, h.2.2.1 0 0⟩

/-- The number of Data records of one holder referencing a key id. -/
def countRefs (ds : List Data) (id : String) : Nat :=
  (ds.filter (fun d => decide (d.Key = id))).length

/-- No Data record anywhere in the document references the key id. -/
def noRefsDoc (gml : GraphML) (id : String) : Prop :=
  ∀ d ∈ allData gml, d.Key ≠ id

/-- Every holder of the document carries at most one Data record for the id. -/
def atMostOneRef (gml : GraphML) (id : String) : Prop :=
  countRefs gml.Data id ≤ 1 ∧
  ∀ g ∈ gml.Graphs, countRefs g.Data id ≤ 1 ∧
    (∀ n ∈ g.Nodes, countRefs n.Data id ≤ 1) ∧
    (∀ e ∈ g.Edges, countRefs e.Data id ≤ 1)

/-- Data records for the key appear only on holders the cascade of RemoveKey
visits for the target scope of the key (as is the case in documents built by
the public operations, where an element only references keys resolved for
its own scope). -/
def refsOnlyInScope (gml : GraphML) (key : Key) : Prop :=
  ((key.Target = "all" ∨ key.Target = "graphml") ∨ countRefs gml.Data key.ID = 0) ∧
  ∀ g ∈ gml.Graphs,
    ((key.Target = "all" ∨ key.Target = "graph") ∨ countRefs g.Data key.ID = 0) ∧
    (∀ n ∈ g.Nodes, (key.Target = "all" ∨ key.Target = "node") ∨
      countRefs n.Data key.ID = 0) ∧
    (∀ e ∈ g.Edges, (key.Target = "all" ∨ key.Target = "edge") ∨
      countRefs e.Data key.ID = 0)

instance (gml : GraphML) (id : String) : Decidable (atMostOneRef gml id) := by
  unfold atMostOneRef; infer_instance

instance (gml : GraphML) (key : Key) : Decidable (refsOnlyInScope gml key) := by
  unfold refsOnlyInScope; infer_instance

theorem noRefs_of_countRefs_zero (ds : List Data) (id : String)
    (h : countRefs ds id = 0) : ∀ d ∈ ds, d.Key ≠ id := by
  induction ds with
  | nil => intro d hd; exact absurd hd (List.not_mem_nil d)
  | cons d0 rest ih =>
    intro d hd
    unfold countRefs at h
    rw [List.filter_cons] at h
    by_cases h0 : d0.Key = id
    · rw [if_pos (by simpa using h0)] at h
      exact absurd h (by simp)
    · rw [if_neg (by simpa using h0)] at h
      rcases List.mem_cons.mp hd with rfl | hd2
      · exact h0
      · exact ih h d hd2

theorem noRefs_removeAttribute (ds : List Data) (id : String)
    (h : countRefs ds id ≤ 1) : ∀ d ∈ removeAttributeFromData ds id, d.Key ≠ id := by
  induction ds with
  | nil => intro d hd; exact absurd hd (List.not_mem_nil d)
  | cons d0 rest ih =>
    unfold removeAttributeFromData
    by_cases h0 : d0.Key = id
    · rw [if_pos h0]
      apply noRefs_of_countRefs_zero
      unfold countRefs at h ⊢
      rw [List.filter_cons, if_pos (by simpa using h0)] at h
      rw [List.length_cons] at h
      omega
    · rw [if_neg h0]
      intro d hd
      rcases List.mem_cons.mp hd with rfl | hd2
      · exact h0
      · refine ih ?_ d hd2
        unfold countRefs at h ⊢
        rw [List.filter_cons, if_neg (by simpa using h0)] at h
        exact h

theorem noRefs_scrub_if (c : Prop) [Decidable c] (ds : List Data) (id : String)
    (hle : countRefs ds id ≤ 1) (hcov : c ∨ countRefs ds id = 0) :
    ∀ d ∈ (if c then removeAttributeFromData ds id else ds), d.Key ≠ id := by
  by_cases hc : c
  · rw [if_pos hc]; exact noRefs_removeAttribute ds id hle
  · rw [if_neg hc]
    exact noRefs_of_countRefs_zero ds id (hcov.resolve_left hc)

theorem removeKeyFromGraph_Data (key : Key) (g : Graph) :
    (removeKeyFromGraph key g).Data =
      if key.Target = "all" ∨ key.Target = "graph" then
        removeAttributeFromData g.Data key.ID
      else g.Data := by
  unfold removeKeyFromGraph
  by_cases h1 : key.Target = "all" ∨ key.Target = "graph" <;>
    by_cases h2 : key.Target = "all" ∨ key.Target = "node" <;>
      by_cases h3 : key.Target = "all" ∨ key.Target = "edge" <;>
        simp [h1, h2, h3]

theorem removeKeyFromGraph_Nodes (key : Key) (g : Graph) :
    (removeKeyFromGraph key g).Nodes =
      if key.Target = "all" ∨ key.Target = "node" then
        g.Nodes.map (fun n => { n with Data := removeAttributeFromData n.Data key.ID })
      else g.Nodes := by
  unfold removeKeyFromGraph
  by_cases h1 : key.Target = "all" ∨ key.Target = "graph" <;>
    by_cases h2 : key.Target = "all" ∨ key.Target = "node" <;>
      by_cases h3 : key.Target = "all" ∨ key.Target = "edge" <;>
        simp [h1, h2, h3]

theorem removeKeyFromGraph_Edges (key : Key) (g : Graph) :
    (removeKeyFromGraph key g).Edges =
      if key.Target = "all" ∨ key.Target = "edge" then
        g.Edges.map (fun e => { e with Data := removeAttributeFromData e.Data key.ID })
      else g.Edges := by
  unfold removeKeyFromGraph
  by_cases h1 : key.Target = "all" ∨ key.Target = "graph" <;>
    by_cases h2 : key.Target = "all" ∨ key.Target = "node" <;>
      by_cases h3 : key.Target = "all" ∨ key.Target = "edge" <;>
        simp [h1, h2, h3]

theorem noRefsDoc_parts (gml2 : GraphML) (id : String)
    (hroot : ∀ d ∈ gml2.Data, d.Key ≠ id)
    (hgr : ∀ g ∈ gml2.Graphs, (∀ d ∈ g.Data, d.Key ≠ id) ∧
      (∀ n ∈ g.Nodes, ∀ d ∈ n.Data, d.Key ≠ id) ∧
      (∀ e ∈ g.Edges, ∀ d ∈ e.Data, d.Key ≠ id)) :
    noRefsDoc gml2 id := by
  intro d hd
  unfold allData at hd
  rcases List.mem_append.mp hd with hd | hd
  · exact hroot d hd
  · obtain ⟨g, hg, hdg⟩ := List.mem_flatMap.mp hd
    rcases List.mem_append.mp hdg with hdg | hdg
    · rcases List.mem_append.mp hdg with hdg | hdg
      · exact (hgr g hg).1 d hdg
      · obtain ⟨n, hn, hdn⟩ := List.mem_flatMap.mp hdg
        exact (hgr g hg).2.1 n hn d hdn
    · obtain ⟨e, he, hde⟩ := List.mem_flatMap.mp hdg
      exact (hgr g hg).2.2 e he d hde

theorem removeKeyFromGraph_noRefs (key : Key) (g : Graph)
    (hle1 : countRefs g.Data key.ID ≤ 1)
    (hleN : ∀ n ∈ g.Nodes, countRefs n.Data key.ID ≤ 1)
    (hleE : ∀ e ∈ g.Edges, countRefs e.Data key.ID ≤ 1)
    (hcov1 : (key.Target = "all" ∨ key.Target = "graph") ∨ countRefs g.Data key.ID = 0)
    (hcovN : ∀ n ∈ g.Nodes, (key.Target = "all" ∨ key.Target = "node") ∨
      countRefs n.Data key.ID = 0)
    (hcovE : ∀ e ∈ g.Edges, (key.Target = "all" ∨ key.Target = "edge") ∨
      countRefs e.Data key.ID = 0) :
    (∀ d ∈ (removeKeyFromGraph key g).Data, d.Key ≠ key.ID) ∧
    (∀ n ∈ (removeKeyFromGraph key g).Nodes, ∀ d ∈ n.Data, d.Key ≠ key.ID) ∧
    (∀ e ∈ (removeKeyFromGraph key g).Edges, ∀ d ∈ e.Data, d.Key ≠ key.ID) := by
  refine ⟨?_, ?_, ?_⟩
  · rw [removeKeyFromGraph_Data]
    exact noRefs_scrub_if _ g.Data key.ID hle1 hcov1
  · rw [removeKeyFromGraph_Nodes]
    by_cases hc : key.Target = "all" ∨ key.Target = "node"
    · rw [if_pos hc]
      intro n hn
      obtain ⟨n0, hn0, rfl⟩ := List.mem_map.mp hn
      exact noRefs_removeAttribute n0.Data key.ID (hleN n0 hn0)
    · rw [if_neg hc]
      intro n hn
      exact noRefs_of_countRefs_zero n.Data key.ID ((hcovN n hn).resolve_left hc)
  · rw [removeKeyFromGraph_Edges]
    by_cases hc : key.Target = "all" ∨ key.Target = "edge"
    · rw [if_pos hc]
      intro e he
      obtain ⟨e0, he0, rfl⟩ := List.mem_map.mp he
      exact noRefs_removeAttribute e0.Data key.ID (hleE e0 he0)
    · rw [if_neg hc]
      intro e he
      exact noRefs_of_countRefs_zero e.Data key.ID ((hcovE e he).resolve_left hc)

theorem removeKeyFromList_mem (l : List Key) (key : Key) (h : key ∈ l) :
    ∃ l2, removeKeyFromList l key = some l2 := by
  induction l with
  | nil => exact absurd h (List.not_mem_nil key)
  | cons k0 rest ih =>
    unfold removeKeyFromList
    by_cases h0 : k0 = key
    · rw [if_pos h0]; exact ⟨rest, rfl⟩
    · rw [if_neg h0]
      rcases List.mem_cons.mp h with h1 | h1
      · exact absurd h1.symm h0
      · obtain ⟨l2, hl2⟩ := ih h1
        rw [hl2]
        exact ⟨k0 :: l2, rfl⟩

/-- C5 amended: RemoveKey is a total cascade only on documents where every
holder carries at most one Data record for the removed key (as built
documents do) and records for the key sit only on holders its target scope
covers.  Under those hypotheses RemoveKey succeeds, afterwards no Data
record anywhere references the key, its scoped identifier is gone from the
index, and - provided no other key occupies the identifier of the same name
at scope all - GetKey(name, scope) finds nothing.  claim5_counterexample
shows the cascade is partial when a holder carries several records for the
key: only the first is removed. -/
theorem claim5_amended (gml : GraphML) (key : Key)
    (hmem : key ∈ gml.Keys)
    (h1 : atMostOneRef gml key.ID)
    (h2 : refsOnlyInScope gml key) :
    ∃ gml2, RemoveKey gml key = .ok gml2 ∧
      noRefsDoc gml2 key.ID ∧
      lookupMap gml2.keysByIdentifier (keyIdentifier key.Name key.Target) = none ∧
      ((lookupMap gml.keysByIdentifier (keyIdentifier key.Name ("all")) = none ∨
          key.Target = "all") →
        GetKey gml2 key.Name key.Target = none) := by
  obtain ⟨keys2, hk2⟩ := removeKeyFromList_mem gml.Keys key hmem
  unfold RemoveKey
  rw [hk2]
  dsimp only
  have hIdentLookup : ∀ m : List (String × Key),
      m = eraseMap gml.keysByIdentifier (keyIdentifier key.Name key.Target) →
      lookupMap m (keyIdentifier key.Name key.Target) = none := by
    intro m hm
    rw [hm, lookupMap_eraseMap, if_pos rfl]
  have hGetKey : ∀ m : List (String × Key),
      m = eraseMap gml.keysByIdentifier (keyIdentifier key.Name key.Target) →
      ((lookupMap gml.keysByIdentifier (keyIdentifier key.Name ("all")) = none ∨
          key.Target = "all") →
        (match lookupMap m (keyIdentifier key.Name key.Target) with
         | some k => some k
         | none => lookupMap m (keyIdentifier key.Name ("all"))) = none) := by
    intro m hm hyp
    rw [hIdentLookup m hm]
    rw [hm, lookupMap_eraseMap]
    by_cases heq : keyIdentifier key.Name ("all") = keyIdentifier key.Name key.Target
    · rw [if_pos heq]
    · rw [if_neg heq]
      rcases hyp with hyp | hyp
      · exact hyp
      · exact absurd (by rw [hyp]) heq
  by_cases hgm : key.Target = "graphml"
  · rw [if_pos (Or.inr hgm), if_pos hgm]
    refine ⟨_, rfl, ?_, hIdentLookup _ rfl, hGetKey _ rfl⟩
    refine noRefsDoc_parts _ key.ID ?_ ?_
    · exact noRefs_removeAttribute gml.Data key.ID h1.1
    · intro g hg
      have hna : ¬(key.Target = "all" ∨ key.Target = "graph") := by
        rw [hgm]; decide
      have hnn : ¬(key.Target = "all" ∨ key.Target = "node") := by
        rw [hgm]; decide
      have hne : ¬(key.Target = "all" ∨ key.Target = "edge") := by
        rw [hgm]; decide
      refine ⟨noRefs_of_countRefs_zero g.Data key.ID
          (((h2.2 g hg).1).resolve_left hna), ?_, ?_⟩
      · intro n hn
        exact noRefs_of_countRefs_zero n.Data key.ID
          (((h2.2 g hg).2.1 n hn).resolve_left hnn)
      · intro e he
        exact noRefs_of_countRefs_zero e.Data key.ID
          (((h2.2 g hg).2.2 e he).resolve_left hne)
  · rw [if_neg hgm]
    by_cases hroot : key.Target = "all" ∨ key.Target = "graphml"
    · rw [if_pos hroot]
      refine ⟨_, rfl, ?_, hIdentLookup _ rfl, hGetKey _ rfl⟩
      refine noRefsDoc_parts _ key.ID ?_ ?_
      · exact noRefs_removeAttribute gml.Data key.ID h1.1
      · intro g2 hg2
        obtain ⟨g, hg, rfl⟩ := List.mem_map.mp hg2
        exact removeKeyFromGraph_noRefs key g (h1.2 g hg).1 (h1.2 g hg).2.1
          (h1.2 g hg).2.2 ((h2.2 g hg).1) ((h2.2 g hg).2.1) ((h2.2 g hg).2.2)
    · rw [if_neg hroot]
      refine ⟨_, rfl, ?_, hIdentLookup _ rfl, hGetKey _ rfl⟩
      refine noRefsDoc_parts _ key.ID ?_ ?_
      · exact noRefs_of_countRefs_zero gml.Data key.ID (h2.1.resolve_left hroot)
      · intro g2 hg2
        obtain ⟨g, hg, rfl⟩ := List.mem_map.mp hg2
        exact removeKeyFromGraph_noRefs key g (h1.2 g hg).1 (h1.2 g hg).2.1
          (h1.2 g hg).2.2 ((h2.2 g hg).1) ((h2.2 g hg).2.1) ((h2.2 g hg).2.2)

/-- A built document with a node-scoped key k carried by one node, for the
cascade witness. -/
def cascadeDoc : GraphML :=
  (AddNode (AddGraph (RegisterKey (NewGraphML ("")) ("node") ("k") ("")
    GoKind.kString none).1 ("") EdgeDirection.directed []).1
    0 [(("k"), some (GoValue.vStr ("v")))] ("n")).1

/-- The key removed in the cascade witness. -/
def cascadeKey : Key :=
  { ID := "d0", Target := "node", Name := "k", KeyType := "string",
    Description := "", DefaultValue := "" }

/-- Witness for claim5_amended on a concretely built document. -/
theorem claim5_witness :
    ∃ gml2, RemoveKey cascadeDoc cascadeKey = .ok gml2 ∧
      noRefsDoc gml2 cascadeKey.ID ∧
      lookupMap gml2.keysByIdentifier
        (keyIdentifier cascadeKey.Name cascadeKey.Target) = none ∧
      ((lookupMap cascadeDoc.keysByIdentifier
          (keyIdentifier cascadeKey.Name ("all")) = none ∨
          cascadeKey.Target = "all") →
        GetKey gml2 cascadeKey.Name cascadeKey.Target = none) :=
  claim5_amended cascadeDoc cascadeKey (by decide) (by decide) (by decide)

theorem idsOk_addKey (gml : GraphML) (key : Key)
    (hid : key.ID = "d" ++ toString gml.Keys.length) (h : idsOk gml) :
    idsOk (addKey gml key) := by
  obtain ⟨hk, hg, hgr, hd⟩ := h
  refine ⟨?_, hg, hgr, hd⟩
  show seqIds ("d") ((gml.Keys ++ [key]).map Key.ID)
  rw [List.map_append, List.map_singleton, hid]
  have h2 := seqIds_append ("d") (gml.Keys.map Key.ID) hk
  rwa [List.length_map] at h2

theorem idsOk_RegisterKey (gml : GraphML) (target name description : String)
    (kind : GoKind) (dv : Option GoValue) (h : idsOk gml) :
    idsOk (RegisterKey gml target name description kind dv).1 := by
  rcases RegisterKey_fst_spec gml target name description kind dv with he | ⟨key, hid, he⟩
  · rwa [he]
  · rw [he]
    exact idsOk_addKey gml key hid h

theorem idsOk_createDataLoop (attrs : AttrList) (target : String) :
    ∀ (names : List String) (gml : GraphML) (acc : List Data),
      idsOk gml → idsOk (createDataLoop attrs target gml names acc).1 := by
  intro names
  induction names with
  | nil => intro gml acc h; exact h
  | cons name rest ih =>
    intro gml acc h
    simp only [createDataLoop]
    cases hk : GetKey gml name target with
    | some keyFunc =>
      dsimp only
      cases hc : createDataWithKey ((lookupMap attrs name).getD none) keyFunc with
      | error e => exact h
      | ok d => exact ih gml (acc ++ [d]) h
    | none =>
      dsimp only
      cases hv : (lookupMap attrs name).getD none with
      | none => exact h
      | some v =>
        dsimp only
        cases hr : RegisterKey gml target name ("") (kindOf v) none with
        | mk gml2 r =>
          have h2 := idsOk_RegisterKey gml target name ("") (kindOf v) none h
          rw [hr] at h2
          cases r with
          | error e => exact h2
          | ok keyFunc =>
            dsimp only
            cases hc : createDataWithKey (some v) keyFunc with
            | error e => exact h2
            | ok d => exact ih gml2 (acc ++ [d]) h2

theorem idsOk_createDataAttributes (gml : GraphML) (attrs : AttrList) (target : String)
    (h : idsOk gml) : idsOk (createDataAttributes gml attrs target).1 :=
  idsOk_createDataLoop attrs target (sortStrings (attrs.map Prod.fst)) gml [] h

theorem createDataWithKey_ID (value : Option GoValue) (key : Key) (d : Data)
    (h : createDataWithKey value key = .ok d) : d.ID = "" := by
  unfold createDataWithKey at h
  cases value with
  | some v =>
    dsimp only at h
    cases hs : stringValueIfSupported v key.KeyType with
    | ok s => rw [hs] at h; injection h with h; rw [← h]
    | error e => rw [hs] at h; injection h with h; rw [← h]
  | none =>
    dsimp only at h
    split at h
    · injection h with h; rw [← h]
    · exact Except.noConfusion h

theorem createDataLoop_data_ids (attrs : AttrList) (target : String) :
    ∀ (names : List String) (gml : GraphML) (acc ds : List Data),
      (∀ d ∈ acc, d.ID = "") →
      (createDataLoop attrs target gml names acc).2 = .ok ds →
      ∀ d ∈ ds, d.ID = "" := by
  intro names
  induction names with
  | nil =>
    intro gml acc ds hacc h
    injection h with h
    rw [← h]
    exact hacc
  | cons name rest ih =>
    intro gml acc ds hacc h
    simp only [createDataLoop] at h
    cases hk : GetKey gml name target with
    | some keyFunc =>
      rw [hk] at h
      dsimp only at h
      cases hc : createDataWithKey ((lookupMap attrs name).getD none) keyFunc with
      | error e => rw [hc] at h; exact Except.noConfusion h
      | ok d0 =>
        rw [hc] at h
        refine ih gml (acc ++ [d0]) ds ?_ h
        intro d hd
        rcases List.mem_append.mp hd with hd | hd
        · exact hacc d hd
        · rw [List.mem_singleton.mp hd]
          exact createDataWithKey_ID _ keyFunc d0 hc
    | none =>
      rw [hk] at h
      dsimp only at h
      cases hv : (lookupMap attrs name).getD none with
      | none => rw [hv] at h; exact Except.noConfusion h
      | some v =>
        rw [hv] at h
        dsimp only at h
        cases hr : RegisterKey gml target name ("") (kindOf v) none with
        | mk gml2 r =>
          rw [hr] at h
          cases r with
          | error e => exact Except.noConfusion h
          | ok keyFunc =>
            dsimp only at h
            cases hc : createDataWithKey (some v) keyFunc with
            | error e => rw [hc] at h; exact Except.noConfusion h
            | ok d0 =>
              rw [hc] at h
              refine ih gml2 (acc ++ [d0]) ds ?_ h
              intro d hd
              rcases List.mem_append.mp hd with hd | hd
              · exact hacc d hd
              · rw [List.mem_singleton.mp hd]
                exact createDataWithKey_ID _ keyFunc d0 hc

theorem createDataAttributes_data_ids (gml : GraphML) (attrs : AttrList) (target : String)
    (ds : List Data) (h : (createDataAttributes gml attrs target).2 = .ok ds) :
    ∀ d ∈ ds, d.ID = "" :=
  createDataLoop_data_ids attrs target (sortStrings (attrs.map Prod.fst)) gml [] ds
    (fun d hd => absurd hd (List.not_mem_nil d)) h

theorem allData_mem_root (gml : GraphML) (d : Data) (h : d ∈ gml.Data) :
    d ∈ allData gml :=
  List.mem_append.mpr (Or.inl h)

theorem allData_mem_graph (gml : GraphML) (g : Graph) (d : Data)
    (hg : g ∈ gml.Graphs) (h : d ∈ g.Data) : d ∈ allData gml :=
  List.mem_append.mpr (Or.inr (List.mem_flatMap.mpr
    ⟨g, hg, List.mem_append.mpr (Or.inl (List.mem_append.mpr (Or.inl h)))⟩))

theorem allData_mem_node (gml : GraphML) (g : Graph) (n : Node) (d : Data)
    (hg : g ∈ gml.Graphs) (hn : n ∈ g.Nodes) (h : d ∈ n.Data) : d ∈ allData gml :=
  List.mem_append.mpr (Or.inr (List.mem_flatMap.mpr
    ⟨g, hg, List.mem_append.mpr (Or.inl (List.mem_append.mpr
      (Or.inr (List.mem_flatMap.mpr ⟨n, hn, h⟩))))⟩))

theorem allData_mem_edge (gml : GraphML) (g : Graph) (e : Edge) (d : Data)
    (hg : g ∈ gml.Graphs) (he : e ∈ g.Edges) (h : d ∈ e.Data) : d ∈ allData gml :=
  List.mem_append.mpr (Or.inr (List.mem_flatMap.mpr
    ⟨g, hg, List.mem_append.mpr (Or.inr (List.mem_flatMap.mpr ⟨e, he, h⟩))⟩))

theorem map_set_of_eq {α β : Type} (f : α → β) :
    ∀ (l : List α) (i : Nat) (b : α),
      (∀ a, l.get? i = some a → f b = f a) → (l.set i b).map f = l.map f := by
  intro l
  induction l with
  | nil => intro i b h; rfl
  | cons x rest ih =>
    intro i b h
    cases i with
    | zero =>
      rw [List.set_cons_zero, List.map_cons, List.map_cons, h x rfl]
    | succ n =>
      rw [List.set_cons_succ, List.map_cons, List.map_cons, ih n b (fun a ha => h a ha)]

theorem idsOk_setGraph (gml2 gml : GraphML) (gi : Nat) (gr gr2 : Graph)
    (hids2 : idsOk gml2)
    (hG : gml2.Graphs = gml.Graphs)
    (hg : gml.Graphs.get? gi = some gr)
    (hID : gr2.ID = gr.ID)
    (hNodes : seqIds ("n") (gr2.Nodes.map Node.ID))
    (hEdges : seqIds ("e") (gr2.Edges.map Edge.ID))
    (hData : ∀ d ∈ gr2.Data ++ gr2.Nodes.flatMap Node.Data ++ gr2.Edges.flatMap Edge.Data,
      d.ID = "") :
    idsOk { gml2 with Graphs := gml2.Graphs.set gi gr2 } := by
  obtain ⟨hk, hgseq, hgr, hdAll⟩ := hids2
  refine ⟨hk, ?_, ?_, ?_⟩
  · show seqIds ("g") ((gml2.Graphs.set gi gr2).map Graph.ID)
    rw [map_set_of_eq Graph.ID gml2.Graphs gi gr2 ?_]
    · exact hgseq
    · intro a ha
      rw [hG, hg] at ha
      injection ha with ha
      rw [hID, ha]
  · intro g hgm
    rcases List.mem_or_eq_of_mem_set hgm with hgm | hgm
    · exact hgr g hgm
    · rw [hgm]
      exact ⟨hNodes, hEdges⟩
  · intro d hd
    unfold allData at hd
    dsimp only at hd
    rcases List.mem_append.mp hd with hd | hd
    · exact hdAll d (allData_mem_root gml2 d hd)
    · obtain ⟨g, hgm, hdg⟩ := List.mem_flatMap.mp hd
      rcases List.mem_or_eq_of_mem_set hgm with hgm | hgm
      · rcases List.mem_append.mp hdg with hdg | hdg
        · rcases List.mem_append.mp hdg with hdg | hdg
          · exact hdAll d (allData_mem_graph gml2 g d hgm hdg)
          · obtain ⟨n, hn, hdn⟩ := List.mem_flatMap.mp hdg
            exact hdAll d (allData_mem_node gml2 g n d hgm hn hdn)
        · obtain ⟨e, he, hde⟩ := List.mem_flatMap.mp hdg
          exact hdAll d (allData_mem_edge gml2 g e d hgm he hde)
      · rw [hgm] at hdg
        exact hData d hdg

theorem idsOk_pushGraph (gml2 gml : GraphML) (graph : Graph) (hids2 : idsOk gml2)
    (hG : gml2.Graphs = gml.Graphs)
    (hid : graph.ID = "g" ++ toString gml.Graphs.length)
    (hN : graph.Nodes = []) (hE : graph.Edges = [])
    (hD : ∀ d ∈ graph.Data, d.ID = "") :
    idsOk { gml2 with Graphs := gml2.Graphs ++ [graph] } := by
  obtain ⟨hk, hgseq, hgr, hdAll⟩ := hids2
  refine ⟨hk, ?_, ?_, ?_⟩
  · show seqIds ("g") ((gml2.Graphs ++ [graph]).map Graph.ID)
    rw [List.map_append, List.map_singleton, hid, ← hG]
    have h2 := seqIds_append ("g") (gml2.Graphs.map Graph.ID) hgseq
    rwa [List.length_map] at h2
  · intro g hgm
    rcases List.mem_append.mp hgm with hgm | hgm
    · exact hgr g hgm
    · rw [List.mem_singleton.mp hgm, hN, hE]
      exact ⟨seqIds_nil ("n"), seqIds_nil ("e")⟩
  · intro d hd
    unfold allData at hd
    dsimp only at hd
    rcases List.mem_append.mp hd with hd | hd
    · exact hdAll d (allData_mem_root gml2 d hd)
    · obtain ⟨g, hgm, hdg⟩ := List.mem_flatMap.mp hd
      rcases List.mem_append.mp hgm with hgm | hgm
      · rcases List.mem_append.mp hdg with hdg | hdg
        · rcases List.mem_append.mp hdg with hdg | hdg
          · exact hdAll d (allData_mem_graph gml2 g d hgm hdg)
          · obtain ⟨n, hn, hdn⟩ := List.mem_flatMap.mp hdg
            exact hdAll d (allData_mem_node gml2 g n d hgm hn hdn)
        · obtain ⟨e, he, hde⟩ := List.mem_flatMap.mp hdg
          exact hdAll d (allData_mem_edge gml2 g e d hgm he hde)
      · rw [List.mem_singleton.mp hgm] at hdg
        rcases List.mem_append.mp hdg with hdg | hdg
        · rcases List.mem_append.mp hdg with hdg | hdg
          · exact hD d hdg
          · obtain ⟨n, hn, hdn⟩ := List.mem_flatMap.mp hdg
            rw [hN] at hn
            exact absurd hn (List.not_mem_nil n)
        · obtain ⟨e, he, hde⟩ := List.mem_flatMap.mp hdg
          rw [hE] at he
          exact absurd he (List.not_mem_nil e)

/-- C6 amended: over every sequence of the public building operations (the
constructors, RegisterKey, AddGraph, AddNode, AddEdge - successful or not),
the stored elements carry exactly the sequential ids d0,d1,... for keys,
g0,g1,... for graphs and n0,n1,.../e0,e1,... per graph for nodes and edges,
reflecting that the n-th successfully added element receives the id with
number n-1 and that failed additions consume no id; Data records, contrary
to the claim, are given no identifier at all (their id is the empty string,
claim6_counterexample). -/
theorem claim6_amended (gml : GraphML) (h : Reachable gml) : idsOk gml := by
  induction h with
  | new description keyTypeDefault =>
    refine ⟨rfl, rfl, ?_, ?_⟩
    · intro g hg
      exact absurd hg (List.not_mem_nil g)
    · intro d hd
      exact absurd hd (List.not_mem_nil d)
  | newWithAttributes description attrs =>
    unfold NewGraphMLWithAttributes
    have hbase : idsOk (NewGraphML description) :=
      ⟨rfl, rfl, fun g hg => absurd hg (List.not_mem_nil g),
        fun d hd => absurd hd (List.not_mem_nil d)⟩
    cases hc : createDataAttributes (NewGraphML description) attrs ("graphml") with
    | mk gml2 r =>
      have h2 := idsOk_createDataAttributes (NewGraphML description) attrs ("graphml") hbase
      have h3 := (createDataAttributes_fst_Graphs (NewGraphML description) attrs ("graphml")).1
      rw [hc] at h2 h3
      cases r with
      | error e => exact h2
      | ok data =>
        have hdata : ∀ d ∈ data, d.ID = "" := by
          refine createDataAttributes_data_ids (NewGraphML description) attrs ("graphml") data ?_
          rw [hc]
        obtain ⟨hk, hgseq, hgr, hdAll⟩ := h2
        refine ⟨hk, hgseq, hgr, ?_⟩
        intro d hd
        unfold allData at hd
        dsimp only at hd
        rcases List.mem_append.mp hd with hd | hd
        · exact hdata d hd
        · obtain ⟨g, hg, hdg⟩ := List.mem_flatMap.mp hd
          rw [h3] at hg
          exact absurd hg (List.not_mem_nil g)
  | registerKey gml target name description kind dv hR ih =>
    exact idsOk_RegisterKey gml target name description kind dv ih
  | addGraph gml description ed attrs hR ih =>
    unfold AddGraph
    cases ed with
    | default => exact ih
    | directed =>
      dsimp only
      cases hc : createDataAttributes gml attrs ("graph") with
      | mk gml2 r =>
        have h2 := idsOk_createDataAttributes gml attrs ("graph") ih
        have h3 := (createDataAttributes_fst_Graphs gml attrs ("graph")).1
        rw [hc] at h2 h3
        cases r with
        | error e => exact h2
        | ok data =>
          exact idsOk_pushGraph gml2 gml _ h2 h3 rfl rfl rfl
            (createDataAttributes_data_ids gml attrs ("graph") data (by rw [hc]))
    | undirected =>
      dsimp only
      cases hc : createDataAttributes gml attrs ("graph") with
      | mk gml2 r =>
        have h2 := idsOk_createDataAttributes gml attrs ("graph") ih
        have h3 := (createDataAttributes_fst_Graphs gml attrs ("graph")).1
        rw [hc] at h2 h3
        cases r with
        | error e => exact h2
        | ok data =>
          exact idsOk_pushGraph gml2 gml _ h2 h3 rfl rfl rfl
            (createDataAttributes_data_ids gml attrs ("graph") data (by rw [hc]))
  | addNode gml gi attrs description hR ih =>
    unfold AddNode
    cases hg : gml.Graphs.get? gi with
    | none => exact ih
    | some gr =>
      dsimp only
      cases hc : createDataAttributes gml attrs ("node") with
      | mk gml2 r =>
        have h2 := idsOk_createDataAttributes gml attrs ("node") ih
        have h3 := (createDataAttributes_fst_Graphs gml attrs ("node")).1
        rw [hc] at h2 h3
        cases r with
        | error e => exact h2
        | ok data =>
          have hdata : ∀ d ∈ data, d.ID = "" :=
            createDataAttributes_data_ids gml attrs ("node") data (by rw [hc])
          have hgrmem : gr ∈ gml2.Graphs := by
            rw [h3]
            exact List.get?_mem hg
          have hNseq := (h2.2.2.1 gr hgrmem).1
          have hEseq := (h2.2.2.1 gr hgrmem).2
          refine idsOk_setGraph gml2 gml gi gr _ h2 h3 hg rfl ?_ ?_ ?_
          · show seqIds ("n") ((gr.Nodes ++
              [({ ID := "n" ++ toString gr.Nodes.length, Description := description,
                  Data := data } : Node)]).map Node.ID)
            rw [List.map_append, List.map_singleton]
            have h4 := seqIds_append ("n") (gr.Nodes.map Node.ID) hNseq
            rwa [List.length_map] at h4
          · exact hEseq
          · intro d hd
            rcases List.mem_append.mp hd with hd | hd
            · rcases List.mem_append.mp hd with hd | hd
              · exact h2.2.2.2 d (allData_mem_graph gml2 gr d hgrmem hd)
              · obtain ⟨n, hn, hdn⟩ := List.mem_flatMap.mp hd
                rcases List.mem_append.mp hn with hn | hn
                · exact h2.2.2.2 d (allData_mem_node gml2 gr n d hgrmem hn hdn)
                · rw [List.mem_singleton.mp hn] at hdn
                  exact hdata d hdn
            · obtain ⟨e, he, hde⟩ := List.mem_flatMap.mp hd
              exact h2.2.2.2 d (allData_mem_edge gml2 gr e d hgrmem he hde)
  | addEdge gml gi s t attrs ed description hR ih =>
    unfold AddEdge
    cases hg : gml.Graphs.get? gi with
    | none => exact ih
    | some gr =>
      dsimp only
      by_cases hex : edgeExists gr s t ed
      · rw [if_pos hex]
        exact ih
      · rw [if_neg hex]
        cases hc : createDataAttributes gml attrs ("edge") with
        | mk gml2 r =>
          have h2 := idsOk_createDataAttributes gml attrs ("edge") ih
          have h3 := (createDataAttributes_fst_Graphs gml attrs ("edge")).1
          rw [hc] at h2 h3
          cases r with
          | error e => exact h2
          | ok data =>
            have hdata : ∀ d ∈ data, d.ID = "" :=
              createDataAttributes_data_ids gml attrs ("edge") data (by rw [hc])
            have hgrmem : gr ∈ gml2.Graphs := by
              rw [h3]
              exact List.get?_mem hg
            have hNseq := (h2.2.2.1 gr hgrmem).1
            have hEseq := (h2.2.2.1 gr hgrmem).2
            refine idsOk_setGraph gml2 gml gi gr _ h2 h3 hg rfl hNseq ?_ ?_
            · show seqIds ("e") ((gr.Edges ++
                [({ ID := "e" ++ toString gr.Edges.length, Source := s, Target := t,
                    Directed := directedLabel ed, Description := description,
                    Data := data } : Edge)]).map Edge.ID)
              rw [List.map_append, List.map_singleton]
              have h4 := seqIds_append ("e") (gr.Edges.map Edge.ID) hEseq
              rwa [List.length_map] at h4
            · intro d hd
              rcases List.mem_append.mp hd with hd | hd
              · rcases List.mem_append.mp hd with hd | hd
                · exact h2.2.2.2 d (allData_mem_graph gml2 gr d hgrmem hd)
                · obtain ⟨n, hn, hdn⟩ := List.mem_flatMap.mp hd
                  exact h2.2.2.2 d (allData_mem_node gml2 gr n d hgrmem hn hdn)
              · obtain ⟨e, he, hde⟩ := List.mem_flatMap.mp hd
                rcases List.mem_append.mp he with he | he
                · exact h2.2.2.2 d (allData_mem_edge gml2 gr e d hgrmem he hde)
                · rw [List.mem_singleton.mp he] at hde
                  exact hdata d hde

/-- Witness for claim6_amended: a concretely built document (one key, one
graph, two nodes, one edge) satisfies the id invariant. -/
theorem claim6_witness : idsOk (AddEdge (AddNode (AddNode (AddGraph
    (RegisterKey (NewGraphML ("")) ("node") ("w") ("") GoKind.kString none).1
    ("") EdgeDirection.directed []).1 0 [] ("")).1 0
    [(("w"), some (GoValue.vStr ("x")))] ("")).1 0 ("n0") ("n1") []
    EdgeDirection.default ("")).1 :=
  claim6_amended _ (Reachable.addEdge _ 0 ("n0") ("n1") [] EdgeDirection.default ("")
    (Reachable.addNode _ 0 [(("w"), some (GoValue.vStr ("x")))] ("")
      (Reachable.addNode _ 0 [] ("")
        (Reachable.addGraph _ ("") EdgeDirection.directed []
          (Reachable.registerKey _ ("node") ("w") ("") GoKind.kString none
            (Reachable.new ("") ("string")))))))

end GoGraphML
